import Mathlib

/-!
# plasma-workspace: job progress tracker and launcher list

A shallow embedding of `libnotificationmanager/job_p.cpp` (class `JobPrivate`)
and of the launcher list exercised by
`libtaskmanager/autotests/launchertasksmodeltest.cpp`.

Qt and KDE Frameworks services (`QUrl`, `KFilePlacesModel`, `QDir::homePath`,
`KLocalizedString`) are external collaborators.  They are passed in as records of
functions, so every theorem holds for every implementation of them; small concrete
stand-ins are given further down to evaluate the model on examples.
-/

namespace NotificationManager

/-! ## External collaborators -/

/-- The part of the `QUrl` API that `job_p.cpp` calls, over an arbitrary carrier `Url`. -/
structure QUrlOps (Url : Type) where
  /-- Qt `QUrl()`, the default-constructed URL -/
  empty : Url
  /-- Qt `QUrl::isValid()` -/
  isValid : Url → Bool
  /-- Qt `QUrl::fromUserInput(s, QString(), QUrl::AssumeLocalFile)` -/
  fromUserInput : String → Url
  /-- Qt `QUrl::adjusted(QUrl::RemoveFilename)` -/
  adjustedRemoveFilename : Url → Url
  /-- Qt `QUrl::adjusted(QUrl::StripTrailingSlash)` -/
  adjustedStripTrailingSlash : Url → Url
  /-- Qt `QUrl::fileName()` -/
  fileName : Url → String
  /-- Qt `a.matches(b, QUrl::StripTrailingSlash)` -/
  matchesStripTrailingSlash : Url → Url → Bool
  /-- Qt `QUrl::isLocalFile()` -/
  isLocalFile : Url → Bool
  /-- Qt `QUrl::toLocalFile()` -/
  toLocalFile : Url → String
  /-- Qt `QUrl::toDisplayString(QUrl::RemoveUserInfo)` -/
  toDisplayStringRemoveUserInfo : Url → String

/-- One row of the `KFilePlacesModel`: `url(idx)`, `text(idx)`, `isHidden(idx)`. -/
structure PlaceRow (Url : Type) where
  url : Url
  text : String
  hidden : Bool

/-- An argument substituted into a localized message (`KLocalizedString::subs`). -/
inductive Arg where
  | num (n : Nat)
  | str (s : String)
deriving DecidableEq, Repr

/-- The `KLocalizedString` entry points used by `JobPrivate::text()`.
`i18nc context text args` and `i18ncp context singular plural args`; for `i18ncp`
the first argument is the number that selects the plural form. -/
structure KLocalizedString where
  i18nc : String → String → List Arg → String
  i18ncp : String → String → String → List Arg → String

/-- Everything `JobPrivate` reads from its surroundings. -/
structure Env (Url : Type) where
  url : QUrlOps Url
  /-- rows of the shared places model, in row order -/
  places : List (PlaceRow Url)
  /-- Qt `QDir::homePath()` -/
  homePath : String
  i18n : KLocalizedString

/-! ## Data model -/

/-- The enum `Notifications::JobState`. -/
inductive JobState where
  | JobStateStopped
  | JobStateRunning
  | JobStateSuspended
deriving DecidableEq, Repr

/-- Signals of `Job` / `JobPrivate` that the embedded code emits. -/
inductive Signal where
  | totalBytesChanged
  | totalFilesChanged
  | totalDirectoriesChanged
  | processedBytesChanged
  | processedFilesChanged
  | processedDirectoriesChanged
  | speedChanged
  | summaryChanged
  | descriptionLabel1Changed
  | descriptionValue1Changed
  | descriptionLabel2Changed
  | descriptionValue2Changed
  | destUrlChanged
  | hasDetailsChanged
  | percentageChanged (percentage : Int)
  | stateChanged (state : JobState)
  | errorChanged (error : Int)
  | errorTextChanged (errorText : String)
  | dismissedChanged
  | updatedChanged
  | closed
deriving DecidableEq, Repr

/-- Observable actions of an operation, in program order: emitted signals and calls
into collaborators that are not part of the job state. -/
inductive Effect where
  | emit (s : Signal)
  /-- Call `QDBusConnection::sessionBus().unregisterObject(path)` -/
  | unregisterObject (path : String)
  /-- Call `Job::resetUpdated()` -/
  | resetUpdated
  /-- Call `Job::setDismissed(b)` -/
  | setDismissed (b : Bool)
  /-- Call `sendErrorReply(QDBusError::NotSupported, msg)` -/
  | sendErrorReply (msg : String)
deriving DecidableEq, Repr

/-- The members of `JobPrivate` (and the two members of its parent `Job` that
`finish()` touches).  `quint64` counters are naturals; `int` members are integers. -/
structure JobPrivate (Url : Type) where
  m_id : Nat
  m_objectPath : String
  m_state : JobState
  m_percentage : Int
  m_error : Int
  m_errorText : String
  m_summary : String
  m_destUrl : Url
  m_speed : Nat
  m_processedBytes : Nat
  m_processedFiles : Nat
  m_processedDirectories : Nat
  m_totalBytes : Nat
  m_totalFiles : Nat
  m_totalDirectories : Nat
  m_descriptionLabel1 : String
  m_descriptionValue1 : String
  m_descriptionLabel2 : String
  m_descriptionValue2 : String
  m_hasDetails : Bool
  /-- Member of `Job`: dismissed from history -/
  m_dismissed : Bool
  /-- Member of `Job`: last updated timestamp -/
  m_updated : Nat

/-! ## QString helpers -/

/-- Qt `QString::startsWith` -/
def startsWith (s pre : String) : Bool :=
  pre.data.isPrefixOf s.data

/-- Qt `QString::mid(position)` -/
def mid (s : String) (position : Nat) : String :=
  String.mk (s.data.drop position)

/-! ## Rendering -/

/-- The loop over the rows of the places model in `prettyDestUrl`: hidden rows are
skipped, the text of the first row whose URL matches is returned. -/
def placesLookup {Url : Type} (ops : QUrlOps Url) (rows : List (PlaceRow Url)) (url : Url) :
    Option String :=
  match rows with
  | [] => none
  | row :: rest =>
    if row.hidden then placesLookup ops rest url
    else if ops.matchesStripTrailingSlash row.url url then some row.text
    else placesLookup ops rest url

/-- Method `JobPrivate::prettyDestUrl()`. -/
def JobPrivate.prettyDestUrl {Url : Type} (env : Env Url) (d : JobPrivate Url) : String :=
  let url := d.m_destUrl
  let url :=
    if !env.url.isValid url && d.m_totalFiles == 1 then
      env.url.adjustedRemoveFilename (env.url.fromUserInput d.m_descriptionValue2)
    else url
  if !env.url.isValid url then ""
  else
    match placesLookup env.url env.places url with
    | some text => text
    | none =>
      if env.url.isLocalFile url then
        let destUrlString := env.url.toLocalFile url
        let homePath := env.homePath
        if startsWith destUrlString homePath then "~" ++ mid destUrlString homePath.length
        else destUrlString
      else env.url.toDisplayStringRemoveUserInfo url

/-- Method `JobPrivate::descriptionUrl()`. -/
def JobPrivate.descriptionUrl {Url : Type} (env : Env Url) (d : JobPrivate Url) : Url :=
  let url := env.url.fromUserInput d.m_descriptionValue2
  if !env.url.isValid url then env.url.fromUserInput d.m_descriptionValue1 else url

/-- Method `JobPrivate::text()`.  The logging before the final `return QString()` has no
effect on the result and is left out. -/
def JobPrivate.text {Url : Type} (env : Env Url) (d : JobPrivate Url) : String :=
  if d.m_errorText ≠ "" then d.m_errorText
  else
    let currentFileName := env.url.fileName (d.descriptionUrl env)
    let destUrlString := d.prettyDestUrl env
    if d.m_totalFiles = 0 then
      if destUrlString ≠ "" then
        if d.m_processedFiles > 0 then
          env.i18n.i18ncp "Copying n files to location" "%1 file to %2" "%1 files to %2"
            [Arg.num d.m_processedFiles, Arg.str destUrlString]
        else
          env.i18n.i18nc "Copying unknown amount of files to location" "to %1"
            [Arg.str destUrlString]
      else if d.m_processedFiles > 0 then
        env.i18n.i18ncp "Copying n files" "%1 file" "%1 files" [Arg.num d.m_processedFiles]
      else ""
    else if d.m_totalFiles = 1 ∧ currentFileName ≠ "" then
      if destUrlString ≠ "" then
        env.i18n.i18nc "Copying file to location" "%1 to %2"
          [Arg.str currentFileName, Arg.str destUrlString]
      else currentFileName
    else if d.m_totalFiles > 1 then
      if destUrlString ≠ "" then
        if d.m_processedFiles > 0 ∧ d.m_processedFiles ≤ d.m_totalFiles then
          env.i18n.i18ncp "Copying n of m files to locaton" "%2 of %1 file to %3"
            "%2 of %1 files to %3"
            [Arg.num d.m_totalFiles, Arg.num d.m_processedFiles, Arg.str destUrlString]
        else
          env.i18n.i18ncp "Copying n files to location" "%1 file to %2" "%1 files to %2"
            [Arg.num (if d.m_processedFiles > 0 then d.m_processedFiles else d.m_totalFiles),
              Arg.str destUrlString]
      else if d.m_processedFiles > 0 ∧ d.m_processedFiles ≤ d.m_totalFiles then
        env.i18n.i18ncp "Copying n of m files" "%2 of %1 file" "%2 of %1 files"
          [Arg.num d.m_totalFiles, Arg.num d.m_processedFiles]
      else
        env.i18n.i18ncp "Copying n files" "%1 file" "%1 files"
          [Arg.num (if d.m_processedFiles > 0 then d.m_processedFiles else d.m_totalFiles)]
    else ""

/-! ## Mutators -/

/-- Conversion of a `uint` to `int` (`static_cast<int>`, and the implicit conversion at
a call of `Job::setError(int)`): the value modulo 2^32 read as two's complement. -/
def uintToInt (n : Nat) : Int :=
  if n % 2 ^ 32 < 2 ^ 31 then ((n % 2 ^ 32 : Nat) : Int) else ((n % 2 ^ 32 : Nat) : Int) - 2 ^ 32

/-- Modelled from the spec: the member template `JobPrivate::updateField` is declared in
`job_p.h`, which is not among the sources.  Section 4.1: the field is updated "if
changed" and the per-field change notification is emitted "only when the value actually
differs from the previous value".  Returns the new content of the target and the
emitted effects. -/
def updateField {T : Type} [DecidableEq T] (newValue target : T) (changeSignal : Signal) :
    T × List Effect :=
  if target ≠ newValue then (newValue, [Effect.emit changeSignal]) else (target, [])

/-- The value of the local `hasDetails` computed in `JobPrivate::updateHasDetails()`. -/
def JobPrivate.computeHasDetails {Url : Type} (d : JobPrivate Url) : Bool :=
  decide (d.m_totalBytes > 0)
    || decide (d.m_totalFiles > 0)
    || decide (d.m_totalDirectories > 0)
    || decide (d.m_processedBytes > 0)
    || decide (d.m_processedFiles > 0)
    || decide (d.m_processedDirectories > 0)
    || decide (d.m_descriptionLabel1 ≠ "")
    || decide (d.m_descriptionLabel2 ≠ "")
    || decide (d.m_descriptionValue1 ≠ "")
    || decide (d.m_descriptionValue2 ≠ "")
    || decide (d.m_speed > 0)

/-- Method `JobPrivate::updateHasDetails()`. -/
def JobPrivate.updateHasDetails {Url : Type} (d : JobPrivate Url) :
    JobPrivate Url × List Effect :=
  let hasDetails : Bool := d.computeHasDetails
  if d.m_hasDetails ≠ hasDetails then
    ({ d with m_hasDetails := hasDetails }, [Effect.emit Signal.hasDetailsChanged])
  else (d, [])

/-- Modelled from the spec: `Job::setErrorText` lives in `job.cpp`, which is not among
the sources.  Section 4.1 lists `setErrorText(text)` as storing the error message;
section 2 gives the object a "notification-on-change contract", so the change signal is
emitted when the stored text changes. -/
def Job.setErrorText {Url : Type} (d : JobPrivate Url) (errorText : String) :
    JobPrivate Url × List Effect :=
  if d.m_errorText ≠ errorText then
    ({ d with m_errorText := errorText }, [Effect.emit (Signal.errorTextChanged errorText)])
  else (d, [])

/-- Modelled from the spec: `Job::setError` lives in `job.cpp`, which is not among the
sources.  Section 4.1 lists `setError(code)` as storing the error code; section 2 gives
the object a "notification-on-change contract", so the change signal is emitted when the
stored code changes. -/
def Job.setError {Url : Type} (d : JobPrivate Url) (error : Int) :
    JobPrivate Url × List Effect :=
  if d.m_error ≠ error then
    ({ d with m_error := error }, [Effect.emit (Signal.errorChanged error)])
  else (d, [])

/-- Modelled from the spec: `Job::setState` lives in `job.cpp`, which is not among the
sources.  Section 4.1, state machine of the running state: "Running↔Suspended via
explicit suspend/resume signal; any state→Stopped via terminate (...); Stopped is
terminal — no further transitions".  A stopped job therefore ignores the call; any other
job takes the requested state, and by the "notification-on-change contract" of section 2
`stateChanged` is emitted when the stored state changes. -/
def Job.setState {Url : Type} (d : JobPrivate Url) (state : JobState) :
    JobPrivate Url × List Effect :=
  if d.m_state = JobState.JobStateStopped then (d, [])
  else if d.m_state ≠ state then
    ({ d with m_state := state }, [Effect.emit (Signal.stateChanged state)])
  else (d, [])

/-- Modelled from the spec: `Job::resetUpdated` lives in `job.cpp`, which is not among
the sources.  Section 4.1: it "resets a last updated timestamp"; `now` is the clock. -/
def Job.resetUpdated {Url : Type} (now : Nat) (d : JobPrivate Url) :
    JobPrivate Url × List Effect :=
  ({ d with m_updated := now }, [Effect.resetUpdated, Effect.emit Signal.updatedChanged])

/-- Modelled from the spec: `Job::setDismissed` lives in `job.cpp`, which is not among
the sources.  Section 4.1: `finish()` "clears any dismissed from history flag"; section
2 gives the object a "notification-on-change contract", so the change signal is emitted
when the stored flag changes. -/
def Job.setDismissed {Url : Type} (d : JobPrivate Url) (dismissed : Bool) :
    JobPrivate Url × List Effect :=
  if d.m_dismissed ≠ dismissed then
    ({ d with m_dismissed := dismissed },
      [Effect.setDismissed dismissed, Effect.emit Signal.dismissedChanged])
  else (d, [Effect.setDismissed dismissed])

/-- Method `JobPrivate::finish()`; `now` is the clock read by `Job::resetUpdated`. -/
def JobPrivate.finish {Url : Type} (now : Nat) (d : JobPrivate Url) :
    JobPrivate Url × List Effect :=
  let unregistered := [Effect.unregisterObject d.m_objectPath]
  if d.m_error = 1 then (d, unregistered ++ [Effect.emit Signal.closed])
  else
    let r1 := Job.resetUpdated now d
    let r2 := Job.setDismissed r1.1 false
    (r2.1, unregistered ++ r1.2 ++ r2.2)

/-- Method `JobPrivate::terminate(const QString &errorMessage)` (JobViewV2). -/
def JobPrivate.terminate {Url : Type} (now : Nat) (d : JobPrivate Url) (errorMessage : String) :
    JobPrivate Url × List Effect :=
  let r1 := Job.setErrorText d errorMessage
  let r2 := Job.setState r1.1 JobState.JobStateStopped
  let r3 := r2.1.finish now
  (r3.1, r1.2 ++ r2.2 ++ r3.2)

/-- Method `JobPrivate::setSuspended(bool suspended)`. -/
def JobPrivate.setSuspended {Url : Type} (d : JobPrivate Url) (suspended : Bool) :
    JobPrivate Url × List Effect :=
  if suspended then Job.setState d JobState.JobStateSuspended
  else Job.setState d JobState.JobStateRunning

/-- Method `JobPrivate::setTotalAmount(quint64 amount, const QString &unit)`. -/
def JobPrivate.setTotalAmount {Url : Type} (d : JobPrivate Url) (amount : Nat) (unit : String) :
    JobPrivate Url × List Effect :=
  let r : JobPrivate Url × List Effect :=
    if unit = "bytes" then
      let u := updateField amount d.m_totalBytes Signal.totalBytesChanged
      ({ d with m_totalBytes := u.1 }, u.2)
    else if unit = "files" then
      let u := updateField amount d.m_totalFiles Signal.totalFilesChanged
      ({ d with m_totalFiles := u.1 }, u.2)
    else if unit = "dirs" then
      let u := updateField amount d.m_totalDirectories Signal.totalDirectoriesChanged
      ({ d with m_totalDirectories := u.1 }, u.2)
    else (d, [])
  let h := r.1.updateHasDetails
  (h.1, r.2 ++ h.2)

/-- Method `JobPrivate::setProcessedAmount(quint64 amount, const QString &unit)`. -/
def JobPrivate.setProcessedAmount {Url : Type} (d : JobPrivate Url) (amount : Nat)
    (unit : String) : JobPrivate Url × List Effect :=
  let r : JobPrivate Url × List Effect :=
    if unit = "bytes" then
      let u := updateField amount d.m_processedBytes Signal.processedBytesChanged
      ({ d with m_processedBytes := u.1 }, u.2)
    else if unit = "files" then
      let u := updateField amount d.m_processedFiles Signal.processedFilesChanged
      ({ d with m_processedFiles := u.1 }, u.2)
    else if unit = "dirs" then
      let u := updateField amount d.m_processedDirectories Signal.processedDirectoriesChanged
      ({ d with m_processedDirectories := u.1 }, u.2)
    else (d, [])
  let h := r.1.updateHasDetails
  (h.1, r.2 ++ h.2)

/-- Method `JobPrivate::setPercent(uint percent)`. -/
def JobPrivate.setPercent {Url : Type} (d : JobPrivate Url) (percent : Nat) :
    JobPrivate Url × List Effect :=
  let percentage : Int := uintToInt percent
  if d.m_percentage ≠ percentage then
    ({ d with m_percentage := percentage }, [Effect.emit (Signal.percentageChanged percentage)])
  else (d, [])

/-- Method `JobPrivate::setSpeed(quint64 bytesPerSecond)`. -/
def JobPrivate.setSpeed {Url : Type} (d : JobPrivate Url) (bytesPerSecond : Nat) :
    JobPrivate Url × List Effect :=
  let u := updateField bytesPerSecond d.m_speed Signal.speedChanged
  let h := ({ d with m_speed := u.1 } : JobPrivate Url).updateHasDetails
  (h.1, u.2 ++ h.2)

/-- Method `JobPrivate::setInfoMessage(const QString &infoMessage)`. -/
def JobPrivate.setInfoMessage {Url : Type} (d : JobPrivate Url) (infoMessage : String) :
    JobPrivate Url × List Effect :=
  let u := updateField infoMessage d.m_summary Signal.summaryChanged
  ({ d with m_summary := u.1 }, u.2)

/-- Method `JobPrivate::setDescriptionField(uint number, name, value)`; the returned
`bool` is the constant `false`. -/
def JobPrivate.setDescriptionField {Url : Type} (d : JobPrivate Url) (number : Nat)
    (name value : String) : (JobPrivate Url × List Effect) × Bool :=
  let r : JobPrivate Url × List Effect :=
    if number = 0 then
      let u1 := updateField name d.m_descriptionLabel1 Signal.descriptionLabel1Changed
      let u2 := updateField value d.m_descriptionValue1 Signal.descriptionValue1Changed
      ({ d with m_descriptionLabel1 := u1.1, m_descriptionValue1 := u2.1 }, u1.2 ++ u2.2)
    else if number = 1 then
      let u1 := updateField name d.m_descriptionLabel2 Signal.descriptionLabel2Changed
      let u2 := updateField value d.m_descriptionValue2 Signal.descriptionValue2Changed
      ({ d with m_descriptionLabel2 := u1.1, m_descriptionValue2 := u2.1 }, u1.2 ++ u2.2)
    else (d, [])
  let h := r.1.updateHasDetails
  ((h.1, r.2 ++ h.2), false)

/-- Method `JobPrivate::clearDescriptionField(uint number)`. -/
def JobPrivate.clearDescriptionField {Url : Type} (d : JobPrivate Url) (number : Nat) :
    JobPrivate Url × List Effect :=
  (d.setDescriptionField number "" "").1

/-- Method `JobPrivate::setDestUrl(const QDBusVariant &urlVariant)`; `url` is
`urlVariant.variant().toUrl()`. -/
def JobPrivate.setDestUrl {Url : Type} [DecidableEq Url] (ops : QUrlOps Url)
    (d : JobPrivate Url) (url : Url) : JobPrivate Url × List Effect :=
  let destUrl := ops.adjustedStripTrailingSlash url
  let u := updateField destUrl d.m_destUrl Signal.destUrlChanged
  ({ d with m_destUrl := u.1 }, u.2)

/-- Method `JobPrivate::setError(uint errorCode)`. -/
def JobPrivate.setError {Url : Type} (d : JobPrivate Url) (errorCode : Nat) :
    JobPrivate Url × List Effect :=
  Job.setError d (uintToInt errorCode)

/-- Method `JobPrivate::terminate(uint errorCode, const QString &errorMessage,
const QVariantMap &hints)` (JobViewV3); `hints` is unused. -/
def JobPrivate.terminateV3 {Url : Type} (now : Nat) (d : JobPrivate Url) (errorCode : Nat)
    (errorMessage : String) : JobPrivate Url × List Effect :=
  let r0 := Job.setError d (uintToInt errorCode)
  let r1 := Job.setErrorText r0.1 errorMessage
  let r2 := Job.setState r1.1 JobState.JobStateStopped
  let r3 := r2.1.finish now
  (r3.1, r0.2 ++ r1.2 ++ r2.2 ++ r3.2)

/-- Method `JobPrivate::update(const QVariantMap &properties)`. -/
def JobPrivate.update {Url : Type} (d : JobPrivate Url) : JobPrivate Url × List Effect :=
  (d, [Effect.sendErrorReply "JobViewV3 update is not yet implemented."])

/-! ## The job as a transition system -/

/-- The calls a producer can make on the bus object of a job. -/
inductive BusOp (Url : Type) where
  | setTotalAmount (amount : Nat) (unit : String)
  | setProcessedAmount (amount : Nat) (unit : String)
  | setPercent (percent : Nat)
  | setSpeed (bytesPerSecond : Nat)
  | setInfoMessage (infoMessage : String)
  | setDescriptionField (number : Nat) (name value : String)
  | clearDescriptionField (number : Nat)
  | setDestUrl (url : Url)
  | setSuspended (suspended : Bool)
  | setError (errorCode : Nat)
  | terminate (errorMessage : String)
  | terminateV3 (errorCode : Nat) (errorMessage : String)
  | update

/-- One bus call applied to a job; `now` is the clock at the time of the call. -/
def JobPrivate.apply {Url : Type} [DecidableEq Url] (ops : QUrlOps Url) (now : Nat)
    (d : JobPrivate Url) : BusOp Url → JobPrivate Url × List Effect
  | BusOp.setTotalAmount amount unit => d.setTotalAmount amount unit
  | BusOp.setProcessedAmount amount unit => d.setProcessedAmount amount unit
  | BusOp.setPercent percent => d.setPercent percent
  | BusOp.setSpeed bytesPerSecond => d.setSpeed bytesPerSecond
  | BusOp.setInfoMessage infoMessage => d.setInfoMessage infoMessage
  | BusOp.setDescriptionField number name value => (d.setDescriptionField number name value).1
  | BusOp.clearDescriptionField number => d.clearDescriptionField number
  | BusOp.setDestUrl url => d.setDestUrl ops url
  | BusOp.setSuspended suspended => d.setSuspended suspended
  | BusOp.setError errorCode => d.setError errorCode
  | BusOp.terminate errorMessage => d.terminate now errorMessage
  | BusOp.terminateV3 errorCode errorMessage => d.terminateV3 now errorCode errorMessage
  | BusOp.update => d.update

/-- A freshly created job: the constructor `JobPrivate::JobPrivate(uint id, ...)`, which
sets the id and the object path.  Modelled from the spec: the default member
initialisers are in `job_p.h`, which is not among the sources; section 3 gives every
counter the default 0, and a new job is running, has no error, no description and no
details. -/
def JobPrivate.create {Url : Type} (ops : QUrlOps Url) (id : Nat) : JobPrivate Url where
  m_id := id
  m_objectPath := "/org/kde/notificationmanager/jobs/JobView_" ++ toString id
  m_state := JobState.JobStateRunning
  m_percentage := 0
  m_error := 0
  m_errorText := ""
  m_summary := ""
  m_destUrl := ops.empty
  m_speed := 0
  m_processedBytes := 0
  m_processedFiles := 0
  m_processedDirectories := 0
  m_totalBytes := 0
  m_totalFiles := 0
  m_totalDirectories := 0
  m_descriptionLabel1 := ""
  m_descriptionValue1 := ""
  m_descriptionLabel2 := ""
  m_descriptionValue2 := ""
  m_hasDetails := false
  m_dismissed := false
  m_updated := 0

/-- The job after a sequence of bus calls, each paired with the clock at its time. -/
def JobPrivate.run {Url : Type} [DecidableEq Url] (ops : QUrlOps Url) (d : JobPrivate Url) :
    List (Nat × BusOp Url) → JobPrivate Url
  | [] => d
  | call :: rest => JobPrivate.run ops (d.apply ops call.1 call.2).1 rest

/-- States reachable from a freshly created job by bus calls. -/
inductive Reachable {Url : Type} [DecidableEq Url] (ops : QUrlOps Url) : JobPrivate Url → Prop
  | create (id : Nat) : Reachable ops (JobPrivate.create ops id)
  | step (d : JobPrivate Url) (now : Nat) (op : BusOp Url) :
      Reachable ops d → Reachable ops (d.apply ops now op).1

/-! ## Concrete stand-ins for the collaborators

Used only to evaluate the model on examples. -/

/-- A URL reduced to the components the job code looks at. -/
structure SimpleUrl where
  scheme : String
  userInfo : String
  host : String
  path : String
deriving DecidableEq, Repr

/-- The text after the last slash of a path. -/
def pathFileName (path : String) : String :=
  String.mk (path.data.reverse.takeWhile (fun c => c != '/')).reverse

/-- The path up to and including its last slash. -/
def pathRemoveFilename (path : String) : String :=
  String.mk (path.data.reverse.dropWhile (fun c => c != '/')).reverse

/-- The path without one trailing slash (the root path is kept). -/
def pathStripTrailingSlash (path : String) : String :=
  match path.data.reverse with
  | '/' :: c :: rest => String.mk (c :: rest).reverse
  | _ => path

/-- A stand-in for `QUrl`: absolute paths are local files, the empty string is the
invalid URL, anything else is kept as a relative path. -/
def simpleUrlOps : QUrlOps SimpleUrl where
  empty := ⟨"", "", "", ""⟩
  isValid u := u != ⟨"", "", "", ""⟩
  fromUserInput s := if startsWith s "/" then ⟨"file", "", "", s⟩ else ⟨"", "", "", s⟩
  adjustedRemoveFilename u := { u with path := pathRemoveFilename u.path }
  adjustedStripTrailingSlash u := { u with path := pathStripTrailingSlash u.path }
  fileName u := pathFileName u.path
  matchesStripTrailingSlash a b :=
    ({ a with path := pathStripTrailingSlash a.path } : SimpleUrl)
      == { b with path := pathStripTrailingSlash b.path }
  isLocalFile u := u.scheme == "file"
  toLocalFile u := u.path
  toDisplayStringRemoveUserInfo u := u.scheme ++ "://" ++ u.host ++ u.path

/-- The text an argument is substituted as. -/
def Arg.toQString : Arg → String
  | Arg.num n => toString n
  | Arg.str s => s

/-- Replaces each placeholder `%1` .. `%9` of a message by the argument of that number. -/
def substitute : List Char → List Arg → List Char
  | [], _ => []
  | [c], _ => [c]
  | c :: k :: rest, args =>
    if c = '%' ∧ '1' ≤ k ∧ k ≤ '9' then
      match args.get? (k.toNat - '1'.toNat) with
      | some a => a.toQString.data ++ substitute rest args
      | none => c :: k :: substitute rest args
    else c :: substitute (k :: rest) args

/-- The behaviour of `KLocalizedString` without a translation catalogue: the source
message is used, the singular when the first argument is the number 1. -/
def untranslated : KLocalizedString where
  i18nc _ text args := String.mk (substitute text.data args)
  i18ncp _ singular plural args :=
    match args with
    | Arg.num 1 :: _ => String.mk (substitute singular.data args)
    | _ => String.mk (substitute plural.data args)

/-- An example surrounding: home `/home/user`, a visible place "Downloads" and a hidden
place "Secret". -/
def exampleEnv : Env SimpleUrl where
  url := simpleUrlOps
  places :=
    [⟨⟨"file", "", "", "/home/user/Secret"⟩, "Secret", true⟩,
     ⟨⟨"file", "", "", "/home/user/Downloads"⟩, "Downloads", false⟩]
  homePath := "/home/user"
  i18n := untranslated

/-- A freshly created example job. -/
def exampleJob : JobPrivate SimpleUrl :=
  JobPrivate.create simpleUrlOps 7

/-- A failed job that still carries counters, a description and a destination. -/
def permissionDeniedJob : JobPrivate SimpleUrl :=
  { exampleJob with
    m_errorText := "Permission denied"
    m_totalFiles := 5
    m_processedFiles := 2
    m_descriptionValue2 := "/home/user/Downloads/report.pdf"
    m_destUrl := ⟨"file", "", "", "/home/user/foo"⟩ }

/-- A job with three processed files, unknown total and no destination. -/
def threeFilesJob : JobPrivate SimpleUrl :=
  { exampleJob with m_processedFiles := 3 }

/-- A job that has copied two of five files into `/home/user/foo`. -/
def twoOfFiveJob : JobPrivate SimpleUrl :=
  { exampleJob with
    m_totalFiles := 5
    m_processedFiles := 2
    m_destUrl := ⟨"file", "", "", "/home/user/foo"⟩ }

/-- A single-file job described by its second description value only. -/
def reportJob : JobPrivate SimpleUrl :=
  { exampleJob with
    m_totalFiles := 1
    m_descriptionValue2 := "/home/user/Downloads/report.pdf" }

/-- The example job after the bus call `setTotalAmount(5, "files")` at time 1. -/
def fiveFilesJob : JobPrivate SimpleUrl :=
  (exampleJob.apply simpleUrlOps 1 (BusOp.setTotalAmount 5 "files")).1

/-- The example job after it was dismissed from the history. -/
def dismissedJob : JobPrivate SimpleUrl :=
  { exampleJob with m_dismissed := true }

/-- A job whose destination `/home/username/foo` is next to, not inside, the home
directory `/home/user`. -/
def siblingOfHomeJob : JobPrivate SimpleUrl :=
  { exampleJob with m_destUrl := ⟨"file", "", "", "/home/username/foo"⟩ }

end NotificationManager

namespace TaskManager

/-! ## Launcher list

`launchertasksmodel.cpp` is not among the sources; only its test is.  The model below
follows section 4.2 of the specification. -/

/-- Modelled from the spec: the URL services the launcher list relies on
(`launchertasksmodel.cpp` is not among the sources).  Section 4.2: each input is parsed
as a URL, invalid ones are dropped, and entries are compared as parsed URLs. -/
structure LauncherUrlOps (Url : Type) where
  /-- parse a serialized entry as a URL -/
  parse : String → Url
  /-- whether a parsed URL is valid -/
  isValid : Url → Bool
  /-- the serialized form of a URL -/
  toString : Url → String

/-- Modelled from the spec: the state of `LauncherTasksModel` (not among the sources),
"an ordered sequence of distinct identifiers (URLs), insertion order preserved". -/
structure LauncherTasksModel (Url : Type) where
  launchersOrder : List Url

/-- Modelled from the spec: a freshly constructed `LauncherTasksModel` holds no
launchers. -/
def LauncherTasksModel.create (Url : Type) : LauncherTasksModel Url :=
  ⟨[]⟩

/-- Modelled from the spec: the scan of `setSerializedLauncherList` (section 4.2,
`replaceAll`): "parses each input as a URL; invalid entries are dropped; duplicates
within the input (after normalization) are collapsed keeping first occurrence".  `acc`
holds the launchers kept so far, in order. -/
def collectLaunchers {Url : Type} [DecidableEq Url] (ops : LauncherUrlOps Url) :
    List String → List Url → List Url
  | [], acc => acc
  | s :: rest, acc =>
    if ops.isValid (ops.parse s) = false then collectLaunchers ops rest acc
    else if ops.parse s ∈ acc then collectLaunchers ops rest acc
    else collectLaunchers ops rest (acc ++ [ops.parse s])

/-- Modelled from the spec: `LauncherTasksModel::setSerializedLauncherList` (section 4.2,
`replaceAll`): "if the resulting deduplicated sequence differs from the current
sequence, replace atomically and emit one change notification; otherwise no-op".  The
second component counts the emissions of `serializedLauncherListChanged`. -/
def LauncherTasksModel.setSerializedLauncherList {Url : Type} [DecidableEq Url]
    (ops : LauncherUrlOps Url) (m : LauncherTasksModel Url) (serializedLaunchers : List String) :
    LauncherTasksModel Url × Nat :=
  let newLaunchersOrder := collectLaunchers ops serializedLaunchers []
  if newLaunchersOrder ≠ m.launchersOrder then (⟨newLaunchersOrder⟩, 1) else (m, 0)

/-- Modelled from the spec: `LauncherTasksModel::serializedLauncherList` (section 8,
`serialized()`): the launchers in order, each in its serialized form. -/
def LauncherTasksModel.serializedLauncherList {Url : Type} (ops : LauncherUrlOps Url)
    (m : LauncherTasksModel Url) : List String :=
  m.launchersOrder.map ops.toString

/-- A stand-in for the URL services, used to evaluate the model on examples: a URL is
its own text, and is valid when it is non-empty and contains no blank. -/
def textUrlOps : LauncherUrlOps String where
  parse s := s
  isValid s := s != "" && !s.data.contains ' '
  toString s := s

/-- The scheme of a URL text (the part before the first colon) in lower case. -/
def lowerScheme : List Char → List Char
  | [] => []
  | c :: rest => if c = ':' then c :: rest else c.toLower :: lowerScheme rest

/-- A stand-in for URL services that normalise what they parse: the scheme of a URL is
case-insensitive and is kept in lower case, so `FILE:///x` and `file:///x` are two
"equivalent representations of the same location" (section 4.2) and parse to the same
URL.  Validity is as in `textUrlOps`. -/
def schemeFoldingUrlOps : LauncherUrlOps String where
  parse s := if s.data.contains ':' then String.mk (lowerScheme s.data) else s
  isValid s := s != "" && !s.data.contains ' '
  toString s := s

/-- The launcher list of `LauncherTasksModelTest::initTestCase`. -/
def m_urlStrings : List String :=
  ["file:///usr/share/applications/org.kde.dolphin.desktop",
   "file:///usr/share/applications/org.kde.konsole.desktop"]

end TaskManager

namespace NotificationManager

/-! ## Theorems: rendering -/

/-- C1: whenever the error text of a job is non-empty, `JobPrivate::text()` returns
exactly that error text, whatever the file counters, the description fields and the
destination URL are. -/
theorem text_error_dominates {Url : Type} (env : Env Url) (d : JobPrivate Url)
    (h : d.m_errorText ≠ "") : d.text env = d.m_errorText := by
  simp [JobPrivate.text, h]

/-- C1 at a concrete job: error text "Permission denied" next to counters, a
description and a destination. -/
theorem text_error_dominates_witness :
    permissionDeniedJob.m_errorText ≠ ""
      ∧ permissionDeniedJob.text exampleEnv = "Permission denied" :=
  ⟨by decide, text_error_dominates exampleEnv _ (by decide)⟩

/-- C2: with empty error text and `totalFiles = 0`, `JobPrivate::text()` is the plural
message "%1 file(s) to %2" of the processed count and the pretty destination when the
destination is non-empty and files were processed, "to %1" of the destination when it is
non-empty and nothing was processed, the plural message "%1 file(s)" of the processed
count when there is no destination and files were processed, and empty otherwise. -/
theorem text_totalFiles_unknown {Url : Type} (env : Env Url) (d : JobPrivate Url)
    (herr : d.m_errorText = "") (htotal : d.m_totalFiles = 0) :
    (d.prettyDestUrl env ≠ "" → d.m_processedFiles > 0 →
        d.text env = env.i18n.i18ncp "Copying n files to location" "%1 file to %2"
          "%1 files to %2" [Arg.num d.m_processedFiles, Arg.str (d.prettyDestUrl env)])
      ∧ (d.prettyDestUrl env ≠ "" → d.m_processedFiles = 0 →
        d.text env = env.i18n.i18nc "Copying unknown amount of files to location" "to %1"
          [Arg.str (d.prettyDestUrl env)])
      ∧ (d.prettyDestUrl env = "" → d.m_processedFiles > 0 →
        d.text env = env.i18n.i18ncp "Copying n files" "%1 file" "%1 files"
          [Arg.num d.m_processedFiles])
      ∧ (d.prettyDestUrl env = "" → d.m_processedFiles = 0 → d.text env = "") := by
  refine ⟨?_, ?_, ?_, ?_⟩ <;> intro hdest hproc <;>
    simp [JobPrivate.text, herr, htotal, hdest, hproc]

/-- C2 at a concrete job: three processed files, unknown total and no destination
render as "3 files". -/
theorem text_totalFiles_unknown_witness :
    threeFilesJob.m_errorText = ""
      ∧ threeFilesJob.m_totalFiles = 0
      ∧ threeFilesJob.text exampleEnv = "3 files" :=
  ⟨rfl, rfl,
    ((text_totalFiles_unknown exampleEnv threeFilesJob rfl rfl).2.2.1
      (by decide) (by decide)).trans (by decide)⟩

/-- C3: with empty error text and `totalFiles > 1`, `JobPrivate::text()` is the plural
message "%2 of %1 file(s)" with the total as `%1` and the processed count as `%2`
(so the processed count is printed first) when `0 < processedFiles ≤ totalFiles`; the
plural message "%1 file(s)" of the total alone when `processedFiles = 0`; and of the
processed count alone when `processedFiles > totalFiles`.  In each case the variant of
the message ending in "to <dest>" is used when the pretty destination is non-empty, and
the variant without it when the destination is empty. -/
theorem text_totalFiles_many {Url : Type} (env : Env Url) (d : JobPrivate Url)
    (herr : d.m_errorText = "") (htotal : d.m_totalFiles > 1) :
    (0 < d.m_processedFiles ∧ d.m_processedFiles ≤ d.m_totalFiles →
        d.prettyDestUrl env ≠ "" →
        d.text env = env.i18n.i18ncp "Copying n of m files to locaton" "%2 of %1 file to %3"
          "%2 of %1 files to %3"
          [Arg.num d.m_totalFiles, Arg.num d.m_processedFiles, Arg.str (d.prettyDestUrl env)])
      ∧ (0 < d.m_processedFiles ∧ d.m_processedFiles ≤ d.m_totalFiles →
        d.prettyDestUrl env = "" →
        d.text env = env.i18n.i18ncp "Copying n of m files" "%2 of %1 file" "%2 of %1 files"
          [Arg.num d.m_totalFiles, Arg.num d.m_processedFiles])
      ∧ (d.m_processedFiles = 0 → d.prettyDestUrl env ≠ "" →
        d.text env = env.i18n.i18ncp "Copying n files to location" "%1 file to %2"
          "%1 files to %2" [Arg.num d.m_totalFiles, Arg.str (d.prettyDestUrl env)])
      ∧ (d.m_processedFiles = 0 → d.prettyDestUrl env = "" →
        d.text env = env.i18n.i18ncp "Copying n files" "%1 file" "%1 files"
          [Arg.num d.m_totalFiles])
      ∧ (d.m_processedFiles > d.m_totalFiles → d.prettyDestUrl env ≠ "" →
        d.text env = env.i18n.i18ncp "Copying n files to location" "%1 file to %2"
          "%1 files to %2" [Arg.num d.m_processedFiles, Arg.str (d.prettyDestUrl env)])
      ∧ (d.m_processedFiles > d.m_totalFiles → d.prettyDestUrl env = "" →
        d.text env = env.i18n.i18ncp "Copying n files" "%1 file" "%1 files"
          [Arg.num d.m_processedFiles]) := by
  have h0 : d.m_totalFiles ≠ 0 := by omega
  have h1 : d.m_totalFiles ≠ 1 := by omega
  refine ⟨?_, ?_, ?_, ?_, ?_, ?_⟩ <;> intro hproc hdest
  · simp [JobPrivate.text, herr, htotal, h0, h1, hdest, hproc]
  · simp [JobPrivate.text, herr, htotal, h0, h1, hdest, hproc]
  · simp [JobPrivate.text, herr, htotal, h0, h1, hdest, hproc]
  · simp [JobPrivate.text, herr, htotal, h0, h1, hdest, hproc]
  · have hp : 0 < d.m_processedFiles := by omega
    have hn : ¬ d.m_processedFiles ≤ d.m_totalFiles := by omega
    simp [JobPrivate.text, herr, htotal, h0, h1, hdest, hp, hn]
  · have hp : 0 < d.m_processedFiles := by omega
    have hn : ¬ d.m_processedFiles ≤ d.m_totalFiles := by omega
    simp [JobPrivate.text, herr, htotal, h0, h1, hdest, hp, hn]

/-- C3 at a concrete job: two of five files copied into `/home/user/foo` render as
"2 of 5 files to ~/foo". -/
theorem text_totalFiles_many_witness :
    twoOfFiveJob.m_errorText = ""
      ∧ twoOfFiveJob.m_totalFiles > 1
      ∧ twoOfFiveJob.text exampleEnv = "2 of 5 files to ~/foo" :=
  ⟨rfl, by decide,
    ((text_totalFiles_many exampleEnv twoOfFiveJob rfl (by decide)).1
      (by decide) (by decide)).trans (by decide)⟩

/-- C4: with empty error text and `totalFiles = 1`, the current file name is
`descriptionUrl().fileName()`, where `descriptionUrl()` is the URL of the second
description value when that is valid and of the first description value otherwise.  If
the file name is non-empty, `JobPrivate::text()` is the message "%1 to %2" of the file
name and the pretty destination when the destination is non-empty, and the bare file
name otherwise; if the file name is empty, the text is empty.  The text does not depend
on `processedFiles`. -/
theorem text_totalFiles_one {Url : Type} (env : Env Url) (d : JobPrivate Url)
    (herr : d.m_errorText = "") (htotal : d.m_totalFiles = 1) :
    (env.url.isValid (env.url.fromUserInput d.m_descriptionValue2) = true →
        d.descriptionUrl env = env.url.fromUserInput d.m_descriptionValue2)
      ∧ (env.url.isValid (env.url.fromUserInput d.m_descriptionValue2) = false →
        d.descriptionUrl env = env.url.fromUserInput d.m_descriptionValue1)
      ∧ (env.url.fileName (d.descriptionUrl env) ≠ "" → d.prettyDestUrl env ≠ "" →
        d.text env = env.i18n.i18nc "Copying file to location" "%1 to %2"
          [Arg.str (env.url.fileName (d.descriptionUrl env)), Arg.str (d.prettyDestUrl env)])
      ∧ (env.url.fileName (d.descriptionUrl env) ≠ "" → d.prettyDestUrl env = "" →
        d.text env = env.url.fileName (d.descriptionUrl env))
      ∧ (env.url.fileName (d.descriptionUrl env) = "" → d.text env = "")
      ∧ ∀ n : Nat,
        ({ d with m_processedFiles := n } : JobPrivate Url).text env = d.text env := by
  refine ⟨?_, ?_, ?_, ?_, ?_, ?_⟩
  · intro hv
    simp [JobPrivate.descriptionUrl, hv]
  · intro hv
    simp [JobPrivate.descriptionUrl, hv]
  · intro hfile hdest
    simp [JobPrivate.text, herr, htotal, hfile, hdest]
  · intro hfile hdest
    simp [JobPrivate.text, herr, htotal, hfile, hdest]
  · intro hfile
    simp [JobPrivate.text, herr, htotal, hfile]
  · intro n
    simp [JobPrivate.text, herr, htotal, JobPrivate.descriptionUrl, JobPrivate.prettyDestUrl]

/-- C4 at a concrete job: one file, second description value
`/home/user/Downloads/report.pdf`, whose folder is the place "Downloads", renders as
"report.pdf to Downloads". -/
theorem text_totalFiles_one_witness :
    reportJob.m_errorText = ""
      ∧ reportJob.m_totalFiles = 1
      ∧ reportJob.text exampleEnv = "report.pdf to Downloads" :=
  ⟨rfl, rfl,
    ((text_totalFiles_one exampleEnv reportJob rfl rfl).2.2.1
      (by decide) (by decide)).trans (by decide)⟩

/-! ## Theorems: the `hasDetails` flag -/

/-- The flag computed by `updateHasDetails` spelled out as a proposition. -/
theorem computeHasDetails_iff {Url : Type} (d : JobPrivate Url) :
    d.computeHasDetails = true ↔
      (d.m_totalBytes > 0 ∨ d.m_totalFiles > 0 ∨ d.m_totalDirectories > 0
        ∨ d.m_processedBytes > 0 ∨ d.m_processedFiles > 0 ∨ d.m_processedDirectories > 0
        ∨ d.m_speed > 0
        ∨ d.m_descriptionLabel1 ≠ "" ∨ d.m_descriptionLabel2 ≠ ""
        ∨ d.m_descriptionValue1 ≠ "" ∨ d.m_descriptionValue2 ≠ "") := by
  simp only [JobPrivate.computeHasDetails, Bool.or_eq_true, decide_eq_true_eq]
  tauto

/-- After `updateHasDetails` the stored flag is the computed one and nothing else has
changed. -/
theorem updateHasDetails_fst {Url : Type} (d : JobPrivate Url) :
    d.updateHasDetails.1 = { d with m_hasDetails := d.computeHasDetails } := by
  unfold JobPrivate.updateHasDetails
  by_cases h : d.m_hasDetails = d.computeHasDetails
  · have e : ({ d with m_hasDetails := d.computeHasDetails } : JobPrivate Url) = d := by
      rw [← h]
    rw [e]
    simp [h]
  · simp [h]

/-- The signal `hasDetailsChanged` is emitted by `updateHasDetails` once if the stored
flag differs from the computed one, and not at all otherwise. -/
theorem updateHasDetails_count {Url : Type} (d : JobPrivate Url) :
    d.updateHasDetails.2.count (Effect.emit Signal.hasDetailsChanged)
      = if d.computeHasDetails = d.m_hasDetails then 0 else 1 := by
  unfold JobPrivate.updateHasDetails
  by_cases h : d.m_hasDetails = d.computeHasDetails
  · simp [h]
  · have h2 : ¬ d.computeHasDetails = d.m_hasDetails := fun e => h e.symm
    simp [h, h2]

/-- An operation that ends in `updateHasDetails`, after a part that neither touches the
flag nor emits `hasDetailsChanged`, stores the computed flag and emits the signal exactly
when the flag flips. -/
theorem then_updateHasDetails {Url : Type} (d : JobPrivate Url)
    (r : JobPrivate Url × List Effect) (hflag : r.1.m_hasDetails = d.m_hasDetails)
    (hquiet : r.2.count (Effect.emit Signal.hasDetailsChanged) = 0) :
    r.1.updateHasDetails.1.m_hasDetails = r.1.updateHasDetails.1.computeHasDetails
      ∧ (r.2 ++ r.1.updateHasDetails.2).count (Effect.emit Signal.hasDetailsChanged)
        = if r.1.updateHasDetails.1.m_hasDetails = d.m_hasDetails then 0 else 1 := by
  rw [List.count_append, hquiet, updateHasDetails_count, updateHasDetails_fst, hflag]
  simp [JobPrivate.computeHasDetails]

/-- `updateField` never emits `hasDetailsChanged` when asked to emit another signal. -/
theorem updateField_quiet {T : Type} [DecidableEq T] (newValue target : T) (sig : Signal)
    (hsig : sig ≠ Signal.hasDetailsChanged) :
    (updateField newValue target sig).2.count (Effect.emit Signal.hasDetailsChanged) = 0 := by
  unfold updateField
  split
  · rw [List.count_eq_zero]
    intro hmem
    simp at hmem
    exact hsig hmem.symm
  · rfl

/-- Step lemma for `setTotalAmount`. -/
theorem setTotalAmount_hasDetails {Url : Type} (d : JobPrivate Url) (amount : Nat)
    (unit : String) :
    (d.setTotalAmount amount unit).1.m_hasDetails
        = (d.setTotalAmount amount unit).1.computeHasDetails
      ∧ (d.setTotalAmount amount unit).2.count (Effect.emit Signal.hasDetailsChanged)
        = if (d.setTotalAmount amount unit).1.m_hasDetails = d.m_hasDetails then 0 else 1 := by
  unfold JobPrivate.setTotalAmount
  apply then_updateHasDetails
  · split_ifs <;> rfl
  · split_ifs
    · exact updateField_quiet _ _ _ (by decide)
    · exact updateField_quiet _ _ _ (by decide)
    · exact updateField_quiet _ _ _ (by decide)
    · rfl

/-- Step lemma for `setProcessedAmount`. -/
theorem setProcessedAmount_hasDetails {Url : Type} (d : JobPrivate Url) (amount : Nat)
    (unit : String) :
    (d.setProcessedAmount amount unit).1.m_hasDetails
        = (d.setProcessedAmount amount unit).1.computeHasDetails
      ∧ (d.setProcessedAmount amount unit).2.count (Effect.emit Signal.hasDetailsChanged)
        = if (d.setProcessedAmount amount unit).1.m_hasDetails = d.m_hasDetails then 0
          else 1 := by
  unfold JobPrivate.setProcessedAmount
  apply then_updateHasDetails
  · split_ifs <;> rfl
  · split_ifs
    · exact updateField_quiet _ _ _ (by decide)
    · exact updateField_quiet _ _ _ (by decide)
    · exact updateField_quiet _ _ _ (by decide)
    · rfl

/-- Step lemma for `setSpeed`. -/
theorem setSpeed_hasDetails {Url : Type} (d : JobPrivate Url) (bytesPerSecond : Nat) :
    (d.setSpeed bytesPerSecond).1.m_hasDetails = (d.setSpeed bytesPerSecond).1.computeHasDetails
      ∧ (d.setSpeed bytesPerSecond).2.count (Effect.emit Signal.hasDetailsChanged)
        = if (d.setSpeed bytesPerSecond).1.m_hasDetails = d.m_hasDetails then 0 else 1 := by
  unfold JobPrivate.setSpeed
  exact then_updateHasDetails d
    ({ d with m_speed := (updateField bytesPerSecond d.m_speed Signal.speedChanged).1 },
      (updateField bytesPerSecond d.m_speed Signal.speedChanged).2)
    rfl (updateField_quiet _ _ _ (by decide))

/-- Step lemma for `setDescriptionField`. -/
theorem setDescriptionField_hasDetails {Url : Type} (d : JobPrivate Url) (number : Nat)
    (name value : String) :
    (d.setDescriptionField number name value).1.1.m_hasDetails
        = (d.setDescriptionField number name value).1.1.computeHasDetails
      ∧ (d.setDescriptionField number name value).1.2.count
          (Effect.emit Signal.hasDetailsChanged)
        = if (d.setDescriptionField number name value).1.1.m_hasDetails = d.m_hasDetails
          then 0 else 1 := by
  unfold JobPrivate.setDescriptionField
  apply then_updateHasDetails
  · split_ifs <;> rfl
  · split_ifs
    · simp only [List.count_append]
      rw [updateField_quiet _ _ _ (by decide), updateField_quiet _ _ _ (by decide)]
    · simp only [List.count_append]
      rw [updateField_quiet _ _ _ (by decide), updateField_quiet _ _ _ (by decide)]
    · rfl

/-- An operation that leaves the flag and every field it is computed from alone, and
does not emit `hasDetailsChanged`, keeps the flag in step and reports no flip. -/
theorem quiet_step {Url : Type} (d : JobPrivate Url) (r : JobPrivate Url × List Effect)
    (hflag : r.1.m_hasDetails = d.m_hasDetails)
    (hcompute : r.1.computeHasDetails = d.computeHasDetails)
    (hquiet : r.2.count (Effect.emit Signal.hasDetailsChanged) = 0) :
    (d.m_hasDetails = d.computeHasDetails → r.1.m_hasDetails = r.1.computeHasDetails)
      ∧ r.2.count (Effect.emit Signal.hasDetailsChanged)
        = if r.1.m_hasDetails = d.m_hasDetails then 0 else 1 := by
  refine ⟨fun h => by rw [hflag, hcompute, h], ?_⟩
  rw [hquiet, if_pos hflag]

/-- The setters of `Job` and `finish` leave the flag and its inputs alone. -/
theorem setErrorText_quiet {Url : Type} (d : JobPrivate Url) (errorText : String) :
    (Job.setErrorText d errorText).1.m_hasDetails = d.m_hasDetails
      ∧ (Job.setErrorText d errorText).1.computeHasDetails = d.computeHasDetails
      ∧ (Job.setErrorText d errorText).2.count (Effect.emit Signal.hasDetailsChanged) = 0 := by
  unfold Job.setErrorText
  split_ifs <;> simp [JobPrivate.computeHasDetails]

/-- The setter `Job::setError` leaves the flag and its inputs alone. -/
theorem setError_quiet {Url : Type} (d : JobPrivate Url) (error : Int) :
    (Job.setError d error).1.m_hasDetails = d.m_hasDetails
      ∧ (Job.setError d error).1.computeHasDetails = d.computeHasDetails
      ∧ (Job.setError d error).2.count (Effect.emit Signal.hasDetailsChanged) = 0 := by
  unfold Job.setError
  split_ifs <;> simp [JobPrivate.computeHasDetails]

/-- The setter `Job::setState` leaves the flag and its inputs alone. -/
theorem setState_quiet {Url : Type} (d : JobPrivate Url) (state : JobState) :
    (Job.setState d state).1.m_hasDetails = d.m_hasDetails
      ∧ (Job.setState d state).1.computeHasDetails = d.computeHasDetails
      ∧ (Job.setState d state).2.count (Effect.emit Signal.hasDetailsChanged) = 0 := by
  unfold Job.setState
  split_ifs <;> simp [JobPrivate.computeHasDetails]

/-- The setter `Job::setDismissed` leaves the flag and its inputs alone. -/
theorem setDismissed_quiet {Url : Type} (d : JobPrivate Url) (dismissed : Bool) :
    (Job.setDismissed d dismissed).1.m_hasDetails = d.m_hasDetails
      ∧ (Job.setDismissed d dismissed).1.computeHasDetails = d.computeHasDetails
      ∧ (Job.setDismissed d dismissed).2.count (Effect.emit Signal.hasDetailsChanged) = 0 := by
  unfold Job.setDismissed
  split_ifs <;> simp [JobPrivate.computeHasDetails]

/-- The method `Job::resetUpdated` leaves the flag and its inputs alone. -/
theorem resetUpdated_quiet {Url : Type} (now : Nat) (d : JobPrivate Url) :
    (Job.resetUpdated now d).1.m_hasDetails = d.m_hasDetails
      ∧ (Job.resetUpdated now d).1.computeHasDetails = d.computeHasDetails
      ∧ (Job.resetUpdated now d).2.count (Effect.emit Signal.hasDetailsChanged) = 0 := by
  unfold Job.resetUpdated
  simp [JobPrivate.computeHasDetails]

/-- The method `finish` leaves the flag and its inputs alone. -/
theorem finish_quiet {Url : Type} (now : Nat) (d : JobPrivate Url) :
    (d.finish now).1.m_hasDetails = d.m_hasDetails
      ∧ (d.finish now).1.computeHasDetails = d.computeHasDetails
      ∧ (d.finish now).2.count (Effect.emit Signal.hasDetailsChanged) = 0 := by
  unfold JobPrivate.finish
  split_ifs
  · simp
  · obtain ⟨a1, a2, a3⟩ := resetUpdated_quiet now d
    obtain ⟨b1, b2, b3⟩ := setDismissed_quiet (Job.resetUpdated now d).1 false
    refine ⟨by rw [b1, a1], by rw [b2, a2], ?_⟩
    simp only [List.count_append, a3, b3]
    simp

/-- Both `terminate` overloads leave the flag and its inputs alone. -/
theorem terminate_quiet {Url : Type} (now : Nat) (d : JobPrivate Url) (msg : String) :
    (d.terminate now msg).1.m_hasDetails = d.m_hasDetails
      ∧ (d.terminate now msg).1.computeHasDetails = d.computeHasDetails
      ∧ (d.terminate now msg).2.count (Effect.emit Signal.hasDetailsChanged) = 0 := by
  unfold JobPrivate.terminate
  obtain ⟨a1, a2, a3⟩ := setErrorText_quiet d msg
  obtain ⟨b1, b2, b3⟩ := setState_quiet (Job.setErrorText d msg).1 JobState.JobStateStopped
  obtain ⟨c1, c2, c3⟩ :=
    finish_quiet now (Job.setState (Job.setErrorText d msg).1 JobState.JobStateStopped).1
  refine ⟨by rw [c1, b1, a1], by rw [c2, b2, a2], ?_⟩
  simp only [List.count_append, a3, b3, c3]

/-- The three-argument `terminate` leaves the flag and its inputs alone. -/
theorem terminateV3_quiet {Url : Type} (now : Nat) (d : JobPrivate Url) (code : Nat)
    (msg : String) :
    (d.terminateV3 now code msg).1.m_hasDetails = d.m_hasDetails
      ∧ (d.terminateV3 now code msg).1.computeHasDetails = d.computeHasDetails
      ∧ (d.terminateV3 now code msg).2.count (Effect.emit Signal.hasDetailsChanged) = 0 := by
  unfold JobPrivate.terminateV3
  obtain ⟨z1, z2, z3⟩ := setError_quiet d (uintToInt code)
  obtain ⟨a1, a2, a3⟩ := setErrorText_quiet (Job.setError d (uintToInt code)).1 msg
  obtain ⟨b1, b2, b3⟩ :=
    setState_quiet (Job.setErrorText (Job.setError d (uintToInt code)).1 msg).1
      JobState.JobStateStopped
  obtain ⟨c1, c2, c3⟩ :=
    finish_quiet now
      (Job.setState (Job.setErrorText (Job.setError d (uintToInt code)).1 msg).1
        JobState.JobStateStopped).1
  refine ⟨by rw [c1, b1, a1, z1], by rw [c2, b2, a2, z2], ?_⟩
  simp only [List.count_append, z3, a3, b3, c3]

/-- Every bus call keeps the stored flag equal to the computed one and emits
`hasDetailsChanged` once if it flips the flag, and not at all otherwise. -/
theorem apply_hasDetails {Url : Type} [DecidableEq Url] (ops : QUrlOps Url) (now : Nat)
    (d : JobPrivate Url) (op : BusOp Url) :
    (d.m_hasDetails = d.computeHasDetails →
        (d.apply ops now op).1.m_hasDetails = (d.apply ops now op).1.computeHasDetails)
      ∧ (d.apply ops now op).2.count (Effect.emit Signal.hasDetailsChanged)
        = if (d.apply ops now op).1.m_hasDetails = d.m_hasDetails then 0 else 1 := by
  cases op with
  | setTotalAmount amount unit =>
    exact ⟨fun _ => (setTotalAmount_hasDetails d amount unit).1,
      (setTotalAmount_hasDetails d amount unit).2⟩
  | setProcessedAmount amount unit =>
    exact ⟨fun _ => (setProcessedAmount_hasDetails d amount unit).1,
      (setProcessedAmount_hasDetails d amount unit).2⟩
  | setSpeed v =>
    exact ⟨fun _ => (setSpeed_hasDetails d v).1, (setSpeed_hasDetails d v).2⟩
  | setDescriptionField number name value =>
    exact ⟨fun _ => (setDescriptionField_hasDetails d number name value).1,
      (setDescriptionField_hasDetails d number name value).2⟩
  | clearDescriptionField number =>
    exact ⟨fun _ => (setDescriptionField_hasDetails d number "" "").1,
      (setDescriptionField_hasDetails d number "" "").2⟩
  | setPercent p =>
    apply quiet_step <;>
      (simp only [JobPrivate.apply, JobPrivate.setPercent]; split_ifs <;>
        simp [JobPrivate.computeHasDetails])
  | setInfoMessage m =>
    apply quiet_step
    · rfl
    · rfl
    · exact updateField_quiet m d.m_summary Signal.summaryChanged (by decide)
  | setDestUrl url =>
    apply quiet_step
    · rfl
    · rfl
    · exact updateField_quiet (ops.adjustedStripTrailingSlash url) d.m_destUrl
        Signal.destUrlChanged (by decide)
  | setSuspended b =>
    cases b
    · exact quiet_step d _ (setState_quiet d _).1 (setState_quiet d _).2.1
        (setState_quiet d _).2.2
    · exact quiet_step d _ (setState_quiet d _).1 (setState_quiet d _).2.1
        (setState_quiet d _).2.2
  | setError code =>
    exact quiet_step d _ (setError_quiet d _).1 (setError_quiet d _).2.1 (setError_quiet d _).2.2
  | terminate msg =>
    exact quiet_step d _ (terminate_quiet now d msg).1 (terminate_quiet now d msg).2.1
      (terminate_quiet now d msg).2.2
  | terminateV3 code msg =>
    exact quiet_step d _ (terminateV3_quiet now d code msg).1
      (terminateV3_quiet now d code msg).2.1 (terminateV3_quiet now d code msg).2.2
  | update =>
    apply quiet_step
    · rfl
    · rfl
    · simp [JobPrivate.apply, JobPrivate.update]

/-- In every reachable state the stored flag is the computed one. -/
theorem reachable_hasDetails {Url : Type} [DecidableEq Url] (ops : QUrlOps Url)
    (d : JobPrivate Url) (h : Reachable ops d) : d.m_hasDetails = d.computeHasDetails := by
  induction h with
  | create id => rfl
  | step d now op _ ih => exact (apply_hasDetails ops now d op).1 ih

/-- C5: in every state reachable from a freshly created job by bus calls (among them
`setTotalAmount`, `setProcessedAmount`, `setPercent`, `setSpeed`, `setInfoMessage`,
`setDescriptionField`, `clearDescriptionField` and `setDestUrl`), the stored `hasDetails`
flag is true exactly when one of the seven counters is positive or one of the four
description strings is non-empty; and every bus call emits `hasDetailsChanged` once if
it flips the flag and not at all if it does not. -/
theorem hasDetails_invariant {Url : Type} [DecidableEq Url] (ops : QUrlOps Url)
    (d : JobPrivate Url) (h : Reachable ops d) :
    (d.m_hasDetails = true ↔
        (d.m_totalBytes > 0 ∨ d.m_totalFiles > 0 ∨ d.m_totalDirectories > 0
          ∨ d.m_processedBytes > 0 ∨ d.m_processedFiles > 0 ∨ d.m_processedDirectories > 0
          ∨ d.m_speed > 0
          ∨ d.m_descriptionLabel1 ≠ "" ∨ d.m_descriptionLabel2 ≠ ""
          ∨ d.m_descriptionValue1 ≠ "" ∨ d.m_descriptionValue2 ≠ ""))
      ∧ ∀ (now : Nat) (op : BusOp Url),
        (d.apply ops now op).2.count (Effect.emit Signal.hasDetailsChanged)
          = if (d.apply ops now op).1.m_hasDetails = d.m_hasDetails then 0 else 1 := by
  refine ⟨?_, fun now op => (apply_hasDetails ops now d op).2⟩
  rw [reachable_hasDetails ops d h]
  exact computeHasDetails_iff d

/-- C5 at a concrete reachable job: after `setTotalAmount(5, "files")` on a fresh job
the flag is set, and `setTotalAmount(0, "files")` then emits `hasDetailsChanged` once. -/
theorem hasDetails_invariant_witness :
    Reachable simpleUrlOps fiveFilesJob
      ∧ fiveFilesJob.m_hasDetails = true
      ∧ (fiveFilesJob.apply simpleUrlOps 2 (BusOp.setTotalAmount 0 "files")).2.count
          (Effect.emit Signal.hasDetailsChanged) = 1 :=
  ⟨Reachable.step exampleJob 1 (BusOp.setTotalAmount 5 "files") (Reachable.create 7),
    (hasDetails_invariant simpleUrlOps fiveFilesJob
      (Reachable.step exampleJob 1 (BusOp.setTotalAmount 5 "files") (Reachable.create 7))).1.mpr
      (Or.inr (Or.inl (by decide))),
    ((hasDetails_invariant simpleUrlOps fiveFilesJob
      (Reachable.step exampleJob 1 (BusOp.setTotalAmount 5 "files") (Reachable.create 7))).2
      2 (BusOp.setTotalAmount 0 "files")).trans (by decide)⟩

/-- C7: the code at the failing input.  For a valid local-file destination that matches
no visible place, whose local path is `/home/username/foo`, and home directory
`/home/user`, `JobPrivate::prettyDestUrl()` returns "~name/foo": the path is
abbreviated although it does not lie inside the home directory. -/
theorem prettyDestUrl_sibling_of_home {Url : Type} (env : Env Url) (d : JobPrivate Url)
    (hvalid : env.url.isValid d.m_destUrl = true)
    (hplace : placesLookup env.url env.places d.m_destUrl = none)
    (hlocal : env.url.isLocalFile d.m_destUrl = true)
    (hpath : env.url.toLocalFile d.m_destUrl = "/home/username/foo")
    (hhome : env.homePath = "/home/user") :
    d.prettyDestUrl env = "~name/foo" := by
  simp only [JobPrivate.prettyDestUrl, hvalid, hplace, hlocal, hpath, hhome, Bool.not_true,
    Bool.false_and, Bool.false_eq_true, if_false, if_true]
  decide

/-- C7 at the example surrounding: destination `file:///home/username/foo`, home
`/home/user`, places "Secret" (hidden) and "Downloads". -/
theorem prettyDestUrl_sibling_of_home_witness :
    exampleEnv.url.isValid siblingOfHomeJob.m_destUrl = true
      ∧ placesLookup exampleEnv.url exampleEnv.places siblingOfHomeJob.m_destUrl = none
      ∧ exampleEnv.url.isLocalFile siblingOfHomeJob.m_destUrl = true
      ∧ exampleEnv.url.toLocalFile siblingOfHomeJob.m_destUrl = "/home/username/foo"
      ∧ exampleEnv.homePath = "/home/user"
      ∧ siblingOfHomeJob.prettyDestUrl exampleEnv = "~name/foo" :=
  ⟨by decide, by decide, by decide, by decide, rfl,
    prettyDestUrl_sibling_of_home exampleEnv siblingOfHomeJob (by decide) (by decide)
      (by decide) (by decide) rfl⟩

/-! ## Theorems: termination, running state and percentage -/

/-- What `Job::setErrorText` leaves alone, and what it emits. -/
theorem setErrorText_frame {Url : Type} (d : JobPrivate Url) (errorText : String) :
    (Job.setErrorText d errorText).1.m_error = d.m_error
      ∧ (Job.setErrorText d errorText).1.m_objectPath = d.m_objectPath
      ∧ (Job.setErrorText d errorText).1.m_dismissed = d.m_dismissed
      ∧ (Job.setErrorText d errorText).1.m_updated = d.m_updated
      ∧ (Job.setErrorText d errorText).1.m_state = d.m_state
      ∧ (Job.setErrorText d errorText).1.m_percentage = d.m_percentage
      ∧ ∀ e ∈ (Job.setErrorText d errorText).2,
          e = Effect.emit (Signal.errorTextChanged errorText) := by
  simp only [Job.setErrorText]
  split_ifs <;> simp

/-- What `Job::setError` stores and leaves alone, and what it emits. -/
theorem setError_frame {Url : Type} (d : JobPrivate Url) (error : Int) :
    (Job.setError d error).1.m_error = error
      ∧ (Job.setError d error).1.m_objectPath = d.m_objectPath
      ∧ (Job.setError d error).1.m_dismissed = d.m_dismissed
      ∧ (Job.setError d error).1.m_updated = d.m_updated
      ∧ (Job.setError d error).1.m_state = d.m_state
      ∧ (Job.setError d error).1.m_percentage = d.m_percentage
      ∧ ∀ e ∈ (Job.setError d error).2, e = Effect.emit (Signal.errorChanged error) := by
  simp only [Job.setError]
  split_ifs with h
  · simp
  · simp only [ne_eq, not_not] at h
    simp [h]

/-- What `Job::setState` stores and leaves alone, and what it emits: a stopped job stays
stopped, any other job takes the requested state. -/
theorem setState_frame {Url : Type} (d : JobPrivate Url) (state : JobState) :
    (Job.setState d state).1.m_error = d.m_error
      ∧ (Job.setState d state).1.m_objectPath = d.m_objectPath
      ∧ (Job.setState d state).1.m_dismissed = d.m_dismissed
      ∧ (Job.setState d state).1.m_updated = d.m_updated
      ∧ (Job.setState d state).1.m_state
        = (if d.m_state = JobState.JobStateStopped then JobState.JobStateStopped else state)
      ∧ (Job.setState d state).1.m_percentage = d.m_percentage
      ∧ ∀ e ∈ (Job.setState d state).2, e = Effect.emit (Signal.stateChanged state) := by
  simp only [Job.setState]
  split_ifs with h1 h2
  · simp [h1]
  · simp
  · simp only [ne_eq, not_not] at h2
    simp [h2]

/-- The behaviour of `finish` in terms of the error code of the job it runs on. -/
theorem finish_spec {Url : Type} (now : Nat) (d : JobPrivate Url) :
    Effect.unregisterObject d.m_objectPath ∈ (d.finish now).2
      ∧ (d.m_error = 1 →
          Effect.emit Signal.closed ∈ (d.finish now).2
            ∧ Effect.resetUpdated ∉ (d.finish now).2
            ∧ (∀ b, Effect.setDismissed b ∉ (d.finish now).2)
            ∧ (d.finish now).1 = d)
      ∧ (d.m_error ≠ 1 →
          Effect.resetUpdated ∈ (d.finish now).2
            ∧ (d.finish now).1.m_updated = now
            ∧ Effect.setDismissed false ∈ (d.finish now).2
            ∧ (d.finish now).1.m_dismissed = false
            ∧ Effect.emit Signal.closed ∉ (d.finish now).2)
      ∧ (d.finish now).1.m_state = d.m_state
      ∧ (d.finish now).1.m_percentage = d.m_percentage := by
  simp only [JobPrivate.finish, Job.resetUpdated, Job.setDismissed]
  split_ifs with h1 h2 <;> simp_all

/-- The behaviour of `finish` when it runs after setters that emit only their own change
signals and leave the object path, the dismissed flag and the timestamp alone. -/
theorem finish_after_setters {Url : Type} (now : Nat) (d s : JobPrivate Url)
    (pre : List Effect)
    (hpath : s.m_objectPath = d.m_objectPath) (hdis : s.m_dismissed = d.m_dismissed)
    (hupd : s.m_updated = d.m_updated)
    (hpre : ∀ e ∈ pre, e ≠ Effect.emit Signal.closed ∧ e ≠ Effect.resetUpdated
      ∧ ∀ b, e ≠ Effect.setDismissed b) :
    Effect.unregisterObject d.m_objectPath ∈ pre ++ (s.finish now).2
      ∧ (s.m_error = 1 →
          Effect.emit Signal.closed ∈ pre ++ (s.finish now).2
            ∧ Effect.resetUpdated ∉ pre ++ (s.finish now).2
            ∧ (∀ b, Effect.setDismissed b ∉ pre ++ (s.finish now).2)
            ∧ (s.finish now).1.m_updated = d.m_updated
            ∧ (s.finish now).1.m_dismissed = d.m_dismissed)
      ∧ (s.m_error ≠ 1 →
          Effect.resetUpdated ∈ pre ++ (s.finish now).2
            ∧ (s.finish now).1.m_updated = now
            ∧ Effect.setDismissed false ∈ pre ++ (s.finish now).2
            ∧ (s.finish now).1.m_dismissed = false
            ∧ Effect.emit Signal.closed ∉ pre ++ (s.finish now).2) := by
  obtain ⟨hunreg, hcancel, hother, _, _⟩ := finish_spec now s
  refine ⟨?_, ?_, ?_⟩
  · rw [← hpath]
    exact List.mem_append_right pre hunreg
  · intro herr
    obtain ⟨c1, c2, c3, c4⟩ := hcancel herr
    refine ⟨List.mem_append_right pre c1, ?_, ?_, by rw [c4, hupd], by rw [c4, hdis]⟩
    · intro hmem
      rcases List.mem_append.mp hmem with hp | hf
      · exact (hpre _ hp).2.1 rfl
      · exact c2 hf
    · intro b hmem
      rcases List.mem_append.mp hmem with hp | hf
      · exact (hpre _ hp).2.2 b rfl
      · exact c3 b hf
  · intro herr
    obtain ⟨c1, c2, c3, c4, c5⟩ := hother herr
    refine ⟨List.mem_append_right pre c1, c2, List.mem_append_right pre c3, c4, ?_⟩
    intro hmem
    rcases List.mem_append.mp hmem with hp | hf
    · exact (hpre _ hp).1 rfl
    · exact c5 hf

/-- C6: `finish()` always unregisters the bus object path of the job.  If the error
code is 1 it emits `closed`, does not reset the last-updated timestamp and does not
touch the dismissed flag (the job is left as it was); for every other error code it
resets the timestamp, sets dismissed to false and does not emit `closed`.  The same
holds for `terminate(errorMessage)` with the error code the job has, and for
`terminate(errorCode, errorMessage, hints)` with the error code passed in. -/
theorem finish_cancel_or_resurface {Url : Type} (now : Nat) (d : JobPrivate Url) :
    (Effect.unregisterObject d.m_objectPath ∈ (d.finish now).2
      ∧ (d.m_error = 1 →
          Effect.emit Signal.closed ∈ (d.finish now).2
            ∧ Effect.resetUpdated ∉ (d.finish now).2
            ∧ (∀ b, Effect.setDismissed b ∉ (d.finish now).2)
            ∧ (d.finish now).1.m_updated = d.m_updated
            ∧ (d.finish now).1.m_dismissed = d.m_dismissed)
      ∧ (d.m_error ≠ 1 →
          Effect.resetUpdated ∈ (d.finish now).2
            ∧ (d.finish now).1.m_updated = now
            ∧ Effect.setDismissed false ∈ (d.finish now).2
            ∧ (d.finish now).1.m_dismissed = false
            ∧ Effect.emit Signal.closed ∉ (d.finish now).2))
    ∧ (∀ errorMessage : String,
      Effect.unregisterObject d.m_objectPath ∈ (d.terminate now errorMessage).2
      ∧ (d.m_error = 1 →
          Effect.emit Signal.closed ∈ (d.terminate now errorMessage).2
            ∧ Effect.resetUpdated ∉ (d.terminate now errorMessage).2
            ∧ (∀ b, Effect.setDismissed b ∉ (d.terminate now errorMessage).2)
            ∧ (d.terminate now errorMessage).1.m_updated = d.m_updated
            ∧ (d.terminate now errorMessage).1.m_dismissed = d.m_dismissed)
      ∧ (d.m_error ≠ 1 →
          Effect.resetUpdated ∈ (d.terminate now errorMessage).2
            ∧ (d.terminate now errorMessage).1.m_updated = now
            ∧ Effect.setDismissed false ∈ (d.terminate now errorMessage).2
            ∧ (d.terminate now errorMessage).1.m_dismissed = false
            ∧ Effect.emit Signal.closed ∉ (d.terminate now errorMessage).2))
    ∧ (∀ (errorCode : Nat) (errorMessage : String),
      Effect.unregisterObject d.m_objectPath ∈ (d.terminateV3 now errorCode errorMessage).2
      ∧ (uintToInt errorCode = 1 →
          Effect.emit Signal.closed ∈ (d.terminateV3 now errorCode errorMessage).2
            ∧ Effect.resetUpdated ∉ (d.terminateV3 now errorCode errorMessage).2
            ∧ (∀ b, Effect.setDismissed b ∉ (d.terminateV3 now errorCode errorMessage).2)
            ∧ (d.terminateV3 now errorCode errorMessage).1.m_updated = d.m_updated
            ∧ (d.terminateV3 now errorCode errorMessage).1.m_dismissed = d.m_dismissed)
      ∧ (uintToInt errorCode ≠ 1 →
          Effect.resetUpdated ∈ (d.terminateV3 now errorCode errorMessage).2
            ∧ (d.terminateV3 now errorCode errorMessage).1.m_updated = now
            ∧ Effect.setDismissed false ∈ (d.terminateV3 now errorCode errorMessage).2
            ∧ (d.terminateV3 now errorCode errorMessage).1.m_dismissed = false
            ∧ Effect.emit Signal.closed ∉ (d.terminateV3 now errorCode errorMessage).2)) := by
  refine ⟨?_, ?_, ?_⟩
  · simpa using finish_after_setters now d d [] rfl rfl rfl (by simp)
  · intro msg
    obtain ⟨a1, a2, a3, a4, _, _, a7⟩ := setErrorText_frame d msg
    obtain ⟨b1, b2, b3, b4, _, _, b7⟩ :=
      setState_frame (Job.setErrorText d msg).1 JobState.JobStateStopped
    have key := finish_after_setters now d
      (Job.setState (Job.setErrorText d msg).1 JobState.JobStateStopped).1
      ((Job.setErrorText d msg).2
        ++ (Job.setState (Job.setErrorText d msg).1 JobState.JobStateStopped).2)
      (by rw [b2, a2]) (by rw [b3, a3]) (by rw [b4, a4])
      (by
        intro e he
        rcases List.mem_append.mp he with h | h
        · rw [a7 e h]; simp
        · rw [b7 e h]; simp)
    rw [b1, a1] at key
    simpa [JobPrivate.terminate, List.append_assoc] using key
  · intro code msg
    obtain ⟨z1, z2, z3, z4, _, _, z7⟩ := setError_frame d (uintToInt code)
    obtain ⟨a1, a2, a3, a4, _, _, a7⟩ :=
      setErrorText_frame (Job.setError d (uintToInt code)).1 msg
    obtain ⟨b1, b2, b3, b4, _, _, b7⟩ :=
      setState_frame (Job.setErrorText (Job.setError d (uintToInt code)).1 msg).1
        JobState.JobStateStopped
    have key := finish_after_setters now d
      (Job.setState (Job.setErrorText (Job.setError d (uintToInt code)).1 msg).1
        JobState.JobStateStopped).1
      ((Job.setError d (uintToInt code)).2
        ++ (Job.setErrorText (Job.setError d (uintToInt code)).1 msg).2
        ++ (Job.setState (Job.setErrorText (Job.setError d (uintToInt code)).1 msg).1
          JobState.JobStateStopped).2)
      (by rw [b2, a2, z2]) (by rw [b3, a3, z3]) (by rw [b4, a4, z4])
      (by
        intro e he
        rcases List.mem_append.mp he with h | h
        · rcases List.mem_append.mp h with h | h
          · rw [z7 e h]; simp
          · rw [a7 e h]; simp
        · rw [b7 e h]; simp)
    rw [b1, a1, z1] at key
    simpa [JobPrivate.terminateV3, List.append_assoc] using key

/-- The running state after each bus call: `setSuspended` stores the state it is asked
for unless the job is stopped, both `terminate` overloads leave `JobStateStopped`, every
other call leaves the state alone. -/
theorem apply_state {Url : Type} [DecidableEq Url] (ops : QUrlOps Url) (now : Nat)
    (d : JobPrivate Url) (op : BusOp Url) :
    (d.apply ops now op).1.m_state =
      match op with
      | BusOp.setSuspended true =>
        if d.m_state = JobState.JobStateStopped then JobState.JobStateStopped
        else JobState.JobStateSuspended
      | BusOp.setSuspended false =>
        if d.m_state = JobState.JobStateStopped then JobState.JobStateStopped
        else JobState.JobStateRunning
      | BusOp.terminate _ => JobState.JobStateStopped
      | BusOp.terminateV3 _ _ => JobState.JobStateStopped
      | _ => d.m_state := by
  cases op with
  | setTotalAmount amount unit =>
    simp only [JobPrivate.apply, JobPrivate.setTotalAmount, updateHasDetails_fst]
    split_ifs <;> rfl
  | setProcessedAmount amount unit =>
    simp only [JobPrivate.apply, JobPrivate.setProcessedAmount, updateHasDetails_fst]
    split_ifs <;> rfl
  | setPercent p =>
    simp only [JobPrivate.apply, JobPrivate.setPercent]
    split_ifs <;> rfl
  | setSpeed v =>
    simp only [JobPrivate.apply, JobPrivate.setSpeed, updateHasDetails_fst]
  | setInfoMessage m => rfl
  | setDescriptionField number name value =>
    simp only [JobPrivate.apply, JobPrivate.setDescriptionField, updateHasDetails_fst]
    split_ifs <;> rfl
  | clearDescriptionField number =>
    simp only [JobPrivate.apply, JobPrivate.clearDescriptionField,
      JobPrivate.setDescriptionField, updateHasDetails_fst]
    split_ifs <;> rfl
  | setDestUrl url => rfl
  | setSuspended b =>
    cases b
    · exact (setState_frame d JobState.JobStateRunning).2.2.2.2.1
    · exact (setState_frame d JobState.JobStateSuspended).2.2.2.2.1
  | setError code => exact (setError_frame d (uintToInt code)).2.2.2.2.1
  | terminate msg =>
    simp only [JobPrivate.apply, JobPrivate.terminate]
    rw [(finish_spec now _).2.2.2.1, (setState_frame _ JobState.JobStateStopped).2.2.2.2.1]
    exact ite_self _
  | terminateV3 code msg =>
    simp only [JobPrivate.apply, JobPrivate.terminateV3]
    rw [(finish_spec now _).2.2.2.1, (setState_frame _ JobState.JobStateStopped).2.2.2.2.1]
    exact ite_self _
  | update => rfl

/-- The stored percentage after each bus call: `setPercent` stores the `int` conversion
of its argument, every other call leaves the percentage alone. -/
theorem apply_percentage {Url : Type} [DecidableEq Url] (ops : QUrlOps Url) (now : Nat)
    (d : JobPrivate Url) (op : BusOp Url) :
    (d.apply ops now op).1.m_percentage =
      match op with
      | BusOp.setPercent percent => uintToInt percent
      | _ => d.m_percentage := by
  cases op with
  | setTotalAmount amount unit =>
    simp only [JobPrivate.apply, JobPrivate.setTotalAmount, updateHasDetails_fst]
    split_ifs <;> rfl
  | setProcessedAmount amount unit =>
    simp only [JobPrivate.apply, JobPrivate.setProcessedAmount, updateHasDetails_fst]
    split_ifs <;> rfl
  | setPercent p =>
    simp only [JobPrivate.apply, JobPrivate.setPercent]
    split_ifs with h
    · rfl
    · simp only [ne_eq, not_not] at h
      exact h
  | setSpeed v =>
    simp only [JobPrivate.apply, JobPrivate.setSpeed, updateHasDetails_fst]
  | setInfoMessage m => rfl
  | setDescriptionField number name value =>
    simp only [JobPrivate.apply, JobPrivate.setDescriptionField, updateHasDetails_fst]
    split_ifs <;> rfl
  | clearDescriptionField number =>
    simp only [JobPrivate.apply, JobPrivate.clearDescriptionField,
      JobPrivate.setDescriptionField, updateHasDetails_fst]
    split_ifs <;> rfl
  | setDestUrl url => rfl
  | setSuspended b =>
    cases b
    · exact (setState_frame d JobState.JobStateRunning).2.2.2.2.2.1
    · exact (setState_frame d JobState.JobStateSuspended).2.2.2.2.2.1
  | setError code => exact (setError_frame d (uintToInt code)).2.2.2.2.2.1
  | terminate msg =>
    simp only [JobPrivate.apply, JobPrivate.terminate]
    rw [(finish_spec now _).2.2.2.2, (setState_frame _ _).2.2.2.2.2.1,
      (setErrorText_frame _ _).2.2.2.2.2.1]
  | terminateV3 code msg =>
    simp only [JobPrivate.apply, JobPrivate.terminateV3]
    rw [(finish_spec now _).2.2.2.2, (setState_frame _ _).2.2.2.2.2.1,
      (setErrorText_frame _ _).2.2.2.2.2.1, (setError_frame _ _).2.2.2.2.2.1]
  | update => rfl

/-- The `int` conversion of a `uint` is a 32-bit signed integer, and is the number
itself below 2^31. -/
theorem uintToInt_range (n : Nat) :
    -(2 : Int) ^ 31 ≤ uintToInt n ∧ uintToInt n < (2 : Int) ^ 31
      ∧ (n < 2 ^ 31 → uintToInt n = (n : Int)) := by
  unfold uintToInt
  have hlt : n % 2 ^ 32 < 2 ^ 32 := Nat.mod_lt n (by norm_num)
  refine ⟨?_, ?_, ?_⟩
  · split_ifs <;> omega
  · split_ifs <;> omega
  · intro hn
    have hmod : n % 2 ^ 32 = n := Nat.mod_eq_of_lt (by omega)
    rw [hmod, if_pos hn]

/-- C6 at concrete jobs: `terminate(1, "", hints)` on the example job unregisters
`JobView_7`, emits `closed` and leaves the dismissed flag alone, while
`terminate("Permission denied")` on a dismissed job resets the timestamp to the clock and
sets dismissed to false. -/
theorem finish_cancel_or_resurface_witness :
    (Effect.unregisterObject "/org/kde/notificationmanager/jobs/JobView_7"
        ∈ (dismissedJob.terminateV3 1000 1 "").2
      ∧ Effect.emit Signal.closed ∈ (dismissedJob.terminateV3 1000 1 "").2
      ∧ (dismissedJob.terminateV3 1000 1 "").1.m_dismissed = true
      ∧ (dismissedJob.terminateV3 1000 1 "").1.m_updated = 0)
      ∧ (Effect.unregisterObject "/org/kde/notificationmanager/jobs/JobView_7"
        ∈ (dismissedJob.terminate 1000 "Permission denied").2
      ∧ Effect.resetUpdated ∈ (dismissedJob.terminate 1000 "Permission denied").2
      ∧ (dismissedJob.terminate 1000 "Permission denied").1.m_dismissed = false
      ∧ (dismissedJob.terminate 1000 "Permission denied").1.m_updated = 1000) :=
  ⟨⟨((finish_cancel_or_resurface 1000 dismissedJob).2.2 1 "").1,
      (((finish_cancel_or_resurface 1000 dismissedJob).2.2 1 "").2.1 (by decide)).1,
      by decide, by decide⟩,
    ⟨((finish_cancel_or_resurface 1000 dismissedJob).2.1 "Permission denied").1,
      (((finish_cancel_or_resurface 1000 dismissedJob).2.1 "Permission denied").2.2
        (by decide)).1,
      by decide, by decide⟩⟩

/-- A stopped job is still stopped after any bus call. -/
theorem apply_keeps_stopped {Url : Type} [DecidableEq Url] (ops : QUrlOps Url) (now : Nat)
    (d : JobPrivate Url) (op : BusOp Url) (hstopped : d.m_state = JobState.JobStateStopped) :
    (d.apply ops now op).1.m_state = JobState.JobStateStopped := by
  rw [apply_state ops now d op]
  cases op with
  | setSuspended b => cases b <;> simp [hstopped]
  | terminate msg => rfl
  | terminateV3 code msg => rfl
  | _ => exact hstopped

/-- A stopped job is still stopped after any sequence of bus calls. -/
theorem run_keeps_stopped {Url : Type} [DecidableEq Url] (ops : QUrlOps Url)
    (later : List (Nat × BusOp Url)) (d : JobPrivate Url)
    (hstopped : d.m_state = JobState.JobStateStopped) :
    (JobPrivate.run ops d later).m_state = JobState.JobStateStopped := by
  induction later generalizing d with
  | nil => exact hstopped
  | cons call rest ih =>
    exact ih (d.apply ops call.1 call.2).1 (apply_keeps_stopped ops call.1 d call.2 hstopped)

/-- C8: the running state never leaves `JobStateStopped`.  For every job, after
`terminate(errorMessage)` or `terminate(errorCode, errorMessage, hints)` the state is
`JobStateStopped`, it is still `JobStateStopped` after any sequence of later bus calls,
and a call of `setSuspended(true)` or `setSuspended(false)` at any point after that
leaves it `JobStateStopped`. -/
theorem stopped_is_terminal {Url : Type} [DecidableEq Url] (ops : QUrlOps Url) (now : Nat)
    (d : JobPrivate Url) :
    (∀ (errorMessage : String) (later : List (Nat × BusOp Url)) (suspended : Bool),
        (d.terminate now errorMessage).1.m_state = JobState.JobStateStopped
          ∧ (JobPrivate.run ops (d.terminate now errorMessage).1 later).m_state
            = JobState.JobStateStopped
          ∧ ((JobPrivate.run ops (d.terminate now errorMessage).1 later).setSuspended
              suspended).1.m_state = JobState.JobStateStopped)
      ∧ (∀ (errorCode : Nat) (errorMessage : String) (later : List (Nat × BusOp Url))
          (suspended : Bool),
        (d.terminateV3 now errorCode errorMessage).1.m_state = JobState.JobStateStopped
          ∧ (JobPrivate.run ops (d.terminateV3 now errorCode errorMessage).1 later).m_state
            = JobState.JobStateStopped
          ∧ ((JobPrivate.run ops (d.terminateV3 now errorCode errorMessage).1
              later).setSuspended suspended).1.m_state = JobState.JobStateStopped) := by
  refine ⟨?_, ?_⟩
  · intro msg later suspended
    have h0 : (d.terminate now msg).1.m_state = JobState.JobStateStopped :=
      apply_state ops now d (BusOp.terminate msg)
    have h1 := run_keeps_stopped ops later (d.terminate now msg).1 h0
    exact ⟨h0, h1, apply_keeps_stopped ops now _ (BusOp.setSuspended suspended) h1⟩
  · intro code msg later suspended
    have h0 : (d.terminateV3 now code msg).1.m_state = JobState.JobStateStopped :=
      apply_state ops now d (BusOp.terminateV3 code msg)
    have h1 := run_keeps_stopped ops later (d.terminateV3 now code msg).1 h0
    exact ⟨h0, h1, apply_keeps_stopped ops now _ (BusOp.setSuspended suspended) h1⟩

/-- C8 at a concrete job: the example job is running; after `terminate("")`, then
`setSuspended(false)` and `setPercent(5)`, a call of `setSuspended(true)` leaves it
stopped. -/
theorem stopped_is_terminal_witness :
    exampleJob.m_state = JobState.JobStateRunning
      ∧ (exampleJob.setSuspended true).1.m_state = JobState.JobStateSuspended
      ∧ ((JobPrivate.run simpleUrlOps (exampleJob.terminate 1 "").1
          [(2, BusOp.setSuspended false), (3, BusOp.setPercent 5)]).setSuspended
            true).1.m_state = JobState.JobStateStopped :=
  ⟨by decide, by decide,
    ((stopped_is_terminal simpleUrlOps 1 exampleJob).1 ""
      [(2, BusOp.setSuspended false), (3, BusOp.setPercent 5)] true).2.2⟩

/-- C9 as stated fails: `setPercent(200)` on a fresh job is a bus call, and it stores
the percentage 200, which is not between 0 and 100. -/
theorem percentage_above_hundred :
    Reachable simpleUrlOps (exampleJob.apply simpleUrlOps 1 (BusOp.setPercent 200)).1
      ∧ (exampleJob.apply simpleUrlOps 1 (BusOp.setPercent 200)).1.m_percentage = 200
      ∧ ¬ (0 ≤ (exampleJob.apply simpleUrlOps 1 (BusOp.setPercent 200)).1.m_percentage
        ∧ (exampleJob.apply simpleUrlOps 1 (BusOp.setPercent 200)).1.m_percentage ≤ 100) :=
  ⟨Reachable.step exampleJob 1 (BusOp.setPercent 200) (Reachable.create 7), by decide,
    by decide⟩

/-- A sequence of bus calls without `setPercent` leaves the stored percentage alone. -/
theorem run_percentage {Url : Type} [DecidableEq Url] (ops : QUrlOps Url)
    (calls : List (Nat × BusOp Url)) (d : JobPrivate Url)
    (hcalls : ∀ call ∈ calls, ∀ percent, call.2 ≠ BusOp.setPercent percent) :
    (JobPrivate.run ops d calls).m_percentage = d.m_percentage := by
  induction calls generalizing d with
  | nil => rfl
  | cons call rest ih =>
    have hstep : (d.apply ops call.1 call.2).1.m_percentage = d.m_percentage := by
      rw [apply_percentage ops call.1 d call.2]
      have hcall := hcalls call (List.mem_cons_self call rest)
      cases hop : call.2 with
      | setPercent p => exact absurd hop (hcall p)
      | _ => rfl
    have hrest := ih (d.apply ops call.1 call.2).1
      (fun c hc => hcalls c (List.mem_cons_of_mem call hc))
    simp only [JobPrivate.run]
    rw [hrest, hstep]

/-- C9 (amended): in every state reachable from a freshly created job by bus calls the
stored percentage is a 32-bit signed integer; `setPercent(p)` stores the `int`
conversion of `p`, which is `p` itself for `p < 2^31` and so lies between 0 and 100 only
when `p` does; no call other than `setPercent`, in particular neither `setTotalAmount`
nor `setProcessedAmount`, changes the stored percentage; and the percentage of a freshly
created job is 0 and stays 0 over every sequence of bus calls without `setPercent`. -/
theorem percentage_set_only_by_setPercent {Url : Type} [DecidableEq Url] (ops : QUrlOps Url)
    (d : JobPrivate Url) (h : Reachable ops d) :
    (-(2 : Int) ^ 31 ≤ d.m_percentage ∧ d.m_percentage < (2 : Int) ^ 31)
      ∧ (∀ now percent : Nat,
        (d.apply ops now (BusOp.setPercent percent)).1.m_percentage = uintToInt percent)
      ∧ (∀ now percent : Nat, percent < 2 ^ 31 →
        (d.apply ops now (BusOp.setPercent percent)).1.m_percentage = (percent : Int))
      ∧ (∀ (now amount : Nat) (unit : String),
        (d.apply ops now (BusOp.setTotalAmount amount unit)).1.m_percentage = d.m_percentage)
      ∧ (∀ (now amount : Nat) (unit : String),
        (d.apply ops now (BusOp.setProcessedAmount amount unit)).1.m_percentage
          = d.m_percentage)
      ∧ (∀ (now : Nat) (op : BusOp Url), (∀ percent, op ≠ BusOp.setPercent percent) →
        (d.apply ops now op).1.m_percentage = d.m_percentage)
      ∧ (∀ id : Nat, (JobPrivate.create ops id).m_percentage = 0)
      ∧ (∀ (id : Nat) (calls : List (Nat × BusOp Url)),
        (∀ call ∈ calls, ∀ percent, call.2 ≠ BusOp.setPercent percent) →
        (JobPrivate.run ops (JobPrivate.create ops id) calls).m_percentage = 0) := by
  refine ⟨?_, ?_, ?_, ?_, ?_, ?_, fun _ => rfl,
    fun id calls hcalls => run_percentage ops calls (JobPrivate.create ops id) hcalls⟩
  · induction h with
    | create id => simp [JobPrivate.create]
    | step d now op _ ih =>
      rw [apply_percentage ops now d op]
      cases op with
      | setPercent p => exact ⟨(uintToInt_range p).1, (uintToInt_range p).2.1⟩
      | _ => exact ih
  · intro now p
    exact apply_percentage ops now d (BusOp.setPercent p)
  · intro now p hp
    rw [apply_percentage ops now d (BusOp.setPercent p)]
    exact (uintToInt_range p).2.2 hp
  · intro now amount unit
    exact apply_percentage ops now d (BusOp.setTotalAmount amount unit)
  · intro now amount unit
    exact apply_percentage ops now d (BusOp.setProcessedAmount amount unit)
  · intro now op hop
    rw [apply_percentage ops now d op]
    cases op with
    | setPercent p => exact absurd rfl (hop p)
    | _ => rfl

/-- C9 at a concrete reachable job: after `setTotalAmount(5, "files")` the percentage
is still 0, `setPercent(42)` stores 42 and `setPercent(4294967295)` stores -1. -/
theorem percentage_set_only_by_setPercent_witness :
    Reachable simpleUrlOps fiveFilesJob
      ∧ (JobPrivate.run simpleUrlOps (JobPrivate.create simpleUrlOps 7)
          [(1, BusOp.setTotalAmount 5 "files")]).m_percentage = 0
      ∧ (fiveFilesJob.apply simpleUrlOps 2 (BusOp.setPercent 42)).1.m_percentage = 42
      ∧ (fiveFilesJob.apply simpleUrlOps 2 (BusOp.setPercent 4294967295)).1.m_percentage
        = -1 :=
  ⟨Reachable.step exampleJob 1 (BusOp.setTotalAmount 5 "files") (Reachable.create 7),
    (percentage_set_only_by_setPercent simpleUrlOps fiveFilesJob
      (Reachable.step exampleJob 1 (BusOp.setTotalAmount 5 "files")
        (Reachable.create 7))).2.2.2.2.2.2.2 7 [(1, BusOp.setTotalAmount 5 "files")]
      (by
        intro call hcall percent
        rw [List.mem_singleton] at hcall
        simp [hcall]),
    (percentage_set_only_by_setPercent simpleUrlOps fiveFilesJob
      (Reachable.step exampleJob 1 (BusOp.setTotalAmount 5 "files")
        (Reachable.create 7))).2.2.1 2 42 (by norm_num),
    ((percentage_set_only_by_setPercent simpleUrlOps fiveFilesJob
      (Reachable.step exampleJob 1 (BusOp.setTotalAmount 5 "files")
        (Reachable.create 7))).2.1 2 4294967295).trans (by decide)⟩

end NotificationManager

namespace TaskManager

/-! ## Theorems: launcher list -/

/-- The scan keeps every entry of a list of valid entries whose URLs are pairwise
distinct and not yet kept. -/
theorem collectLaunchers_valid_nodup {Url : Type} [DecidableEq Url] (ops : LauncherUrlOps Url)
    (L : List String) (acc : List Url)
    (hvalid : ∀ s ∈ L, ops.isValid (ops.parse s) = true)
    (hnodup : (acc ++ L.map ops.parse).Nodup) :
    collectLaunchers ops L acc = acc ++ L.map ops.parse := by
  induction L generalizing acc with
  | nil => simp [collectLaunchers]
  | cons s rest ih =>
    have hs : ops.isValid (ops.parse s) = true := hvalid s (List.mem_cons_self s rest)
    have hnot : ops.parse s ∉ acc := by
      intro hmem
      have hdis := List.disjoint_of_nodup_append hnodup
      exact hdis hmem (by simp)
    have hrest : ∀ t ∈ rest, ops.isValid (ops.parse t) = true :=
      fun t ht => hvalid t (List.mem_cons_of_mem s ht)
    have hnodup2 : ((acc ++ [ops.parse s]) ++ rest.map ops.parse).Nodup := by
      simpa [List.append_assoc] using hnodup
    simp only [collectLaunchers, hs, Bool.true_eq_false, if_false, hnot]
    rw [ih (acc ++ [ops.parse s]) hrest hnodup2]
    simp [List.append_assoc]

/-- Whatever the URL services are: when two different texts are "equivalent
representations of the same location" (section 4.2), that is, parse to the same URL, the
round trip cannot return both of them unchanged. -/
theorem equivalent_representations_not_both_returned {Url : Type} [DecidableEq Url]
    (ops : LauncherUrlOps Url) (s1 s2 : String) (hne : s1 ≠ s2)
    (hsame : ops.parse s1 = ops.parse s2) :
    ¬ ((((LauncherTasksModel.create Url).setSerializedLauncherList ops
            [s1]).1.serializedLauncherList ops = [s1])
        ∧ (((LauncherTasksModel.create Url).setSerializedLauncherList ops
            [s2]).1.serializedLauncherList ops = [s2])) := by
  intro h
  obtain ⟨h1, h2⟩ := h
  by_cases hv : ops.isValid (ops.parse s1) = true
  · have hv2 : ops.isValid (ops.parse s2) = true := by rw [← hsame]; exact hv
    simp [LauncherTasksModel.setSerializedLauncherList, LauncherTasksModel.create,
      LauncherTasksModel.serializedLauncherList, collectLaunchers, hv] at h1
    simp [LauncherTasksModel.setSerializedLauncherList, LauncherTasksModel.create,
      LauncherTasksModel.serializedLauncherList, collectLaunchers, hv2] at h2
    exact hne (by rw [← h1, ← h2, hsame])
  · simp only [Bool.not_eq_true] at hv
    simp [LauncherTasksModel.setSerializedLauncherList, LauncherTasksModel.create,
      LauncherTasksModel.serializedLauncherList, collectLaunchers, hv] at h1

/-- C10 (amended): for every non-empty list `L` of valid, pairwise distinct launcher
URLs, `setSerializedLauncherList(L)` on a fresh model stores the URLs of `L` in the same
order and emits `serializedLauncherListChanged` exactly once; `serializedLauncherList()`
then returns, in the same order, the serialized form of each entry of `L`, which is `L`
unchanged exactly when every entry of `L` is written in its serialized form. -/
theorem launcher_list_round_trip {Url : Type} [DecidableEq Url] (ops : LauncherUrlOps Url)
    (L : List String)
    (hvalid : ∀ s ∈ L, ops.isValid (ops.parse s) = true)
    (hdistinct : (L.map ops.parse).Nodup)
    (hne : L ≠ []) :
    ((LauncherTasksModel.create Url).setSerializedLauncherList ops L).1.launchersOrder
        = L.map ops.parse
      ∧ (((LauncherTasksModel.create Url).setSerializedLauncherList ops
            L).1.serializedLauncherList ops
          = L.map (fun s => ops.toString (ops.parse s)))
      ∧ ((((LauncherTasksModel.create Url).setSerializedLauncherList ops
            L).1.serializedLauncherList ops = L)
          ↔ ∀ s ∈ L, ops.toString (ops.parse s) = s)
      ∧ ((LauncherTasksModel.create Url).setSerializedLauncherList ops L).2 = 1 := by
  have hcollect : collectLaunchers ops L [] = L.map ops.parse := by
    simpa using collectLaunchers_valid_nodup ops L [] hvalid (by simpa using hdistinct)
  have hnonempty : L.map ops.parse ≠ [] := by
    intro h
    exact hne (List.map_eq_nil_iff.mp h)
  have hstate :
      ((LauncherTasksModel.create Url).setSerializedLauncherList ops L).1.launchersOrder
        = L.map ops.parse := by
    simp [LauncherTasksModel.setSerializedLauncherList, LauncherTasksModel.create, hcollect,
      hnonempty]
  have hout :
      ((LauncherTasksModel.create Url).setSerializedLauncherList ops
          L).1.serializedLauncherList ops
        = L.map (fun s => ops.toString (ops.parse s)) := by
    simp only [LauncherTasksModel.serializedLauncherList, hstate, List.map_map]
    rfl
  refine ⟨hstate, hout, ?_, ?_⟩
  · rw [hout]
    constructor
    · intro h s hs
      have h2 : L.map (fun s => ops.toString (ops.parse s)) = L.map id := by
        rw [List.map_id]
        exact h
      exact List.map_inj_left.mp h2 s hs
    · intro h
      conv_rhs => rw [← List.map_id L]
      exact List.map_congr_left (fun s hs => by simpa using h s hs)
  · simp [LauncherTasksModel.setSerializedLauncherList, LauncherTasksModel.create, hcollect,
      hnonempty]

/-- C10 at the list of the test: the dolphin and konsole desktop-file URLs are returned
unchanged and the signal is emitted once. -/
theorem launcher_list_round_trip_witness :
    (∀ s ∈ m_urlStrings, textUrlOps.isValid (textUrlOps.parse s) = true)
      ∧ (m_urlStrings.map textUrlOps.parse).Nodup
      ∧ m_urlStrings ≠ []
      ∧ (((LauncherTasksModel.create String).setSerializedLauncherList textUrlOps
            m_urlStrings).1.serializedLauncherList textUrlOps = m_urlStrings)
      ∧ ((LauncherTasksModel.create String).setSerializedLauncherList textUrlOps
            m_urlStrings).2 = 1 :=
  ⟨by decide, by decide, by decide,
    (launcher_list_round_trip textUrlOps m_urlStrings (by decide) (by decide)
      (by decide)).2.2.1.mpr (by decide),
    (launcher_list_round_trip textUrlOps m_urlStrings (by decide) (by decide)
      (by decide)).2.2.2⟩

/-- C10 as stated fails twice.  The empty list is a list of valid, pairwise distinct
URLs, and on a fresh model no `serializedLauncherListChanged` is emitted for it.  And the
one-element list `FILE:///usr/share/applications/org.kde.dolphin.desktop` is a valid
URL, is accepted with one signal, but is returned with its scheme in lower case, not
unchanged. -/
theorem launcher_list_claim_fails :
    ((∀ s ∈ ([] : List String), textUrlOps.isValid (textUrlOps.parse s) = true)
      ∧ (([] : List String).map textUrlOps.parse).Nodup
      ∧ ((LauncherTasksModel.create String).setSerializedLauncherList textUrlOps []).2 = 0
      ∧ ((LauncherTasksModel.create String).setSerializedLauncherList textUrlOps []).2 ≠ 1)
    ∧ ((∀ s ∈ ["FILE:///usr/share/applications/org.kde.dolphin.desktop"],
          schemeFoldingUrlOps.isValid (schemeFoldingUrlOps.parse s) = true)
      ∧ (["FILE:///usr/share/applications/org.kde.dolphin.desktop"].map
          schemeFoldingUrlOps.parse).Nodup
      ∧ ((LauncherTasksModel.create String).setSerializedLauncherList schemeFoldingUrlOps
          ["FILE:///usr/share/applications/org.kde.dolphin.desktop"]).2 = 1
      ∧ (((LauncherTasksModel.create String).setSerializedLauncherList schemeFoldingUrlOps
          ["FILE:///usr/share/applications/org.kde.dolphin.desktop"]).1.serializedLauncherList
            schemeFoldingUrlOps
          = ["file:///usr/share/applications/org.kde.dolphin.desktop"])
      ∧ (((LauncherTasksModel.create String).setSerializedLauncherList schemeFoldingUrlOps
          ["FILE:///usr/share/applications/org.kde.dolphin.desktop"]).1.serializedLauncherList
            schemeFoldingUrlOps
          ≠ ["FILE:///usr/share/applications/org.kde.dolphin.desktop"])) := by
  decide

end TaskManager
